import Mathlib

/-!
# HMS-PROJECT: appointment conflict detection and doctor availability

A shallow embedding of `src/models/Appointment.js` (`checkConflict`),
`src/models/Doctor.js` (`isAvailable`) and the creation and update handlers of
`src/routes/appointments.js`, with the fragments of the ECMAScript runtime they
rely on (Date arithmetic, `parseInt`, `String.prototype.split`, relational
comparison, `toLocaleDateString`). A handler is a function from the database and
the request to the response and the database it leaves.

Conventions of the embedding:
* a JavaScript `Date` is its time value in milliseconds since the epoch,
  `none` standing for an invalid date (NaN);
* local time is UTC shifted by a fixed offset `tza` (milliseconds), a parameter
  of every function that reads or writes local fields; daylight-saving
  transitions are outside the model;
* a time value lies within 8.64e15 ms of the epoch: `setHours` and `setMinutes` clip their
  result (`TimeClip`), so that a date moved beyond the limit becomes invalid; the `date` of
  a document or of a request is a time value;
* numbers produced by `parseInt` are exact integers, `none` standing for NaN; they agree
  with the doubles of the runtime while values stay below 2^53;
* optional fields of a document are `Option`s, `none` standing for an absent field
  (`undefined`); object ids are natural numbers.
-/

namespace HMS

/-! ## ECMAScript time values -/

def msPerDay : Int := 86400000
def msPerHour : Int := 3600000
def msPerMinute : Int := 60000
def msPerSecond : Int := 1000

/-- Day number of a time value (floor division). -/
def Day (t : Int) : Int := t / msPerDay

def HourFromTime (t : Int) : Int := (t / msPerHour) % 24
def MinFromTime (t : Int) : Int := (t / msPerMinute) % 60
def SecFromTime (t : Int) : Int := (t / msPerSecond) % 60
def msFromTime (t : Int) : Int := t % msPerSecond

def MakeTime (hour min sec ms : Int) : Int :=
  hour * msPerHour + min * msPerMinute + sec * msPerSecond + ms

def MakeDate (day time : Int) : Int := day * msPerDay + time

def LocalTime (tza t : Int) : Int := t + tza
def UTC (tza t : Int) : Int := t - tza

/-- A JavaScript number holding an integer, `none` for NaN. -/
abbrev JSNumber := Option Int

/-- A JavaScript `Date` object: its time value, `none` for an invalid date. -/
abbrev JSDate := Option Int

/-- The largest magnitude of a time value: 8.64e15 ms, one hundred million days. -/
def maxTimeValue : Int := 8640000000000000

/-- `TimeClip(time)`: NaN when the time lies beyond the range of time values. -/
def TimeClip (time : Int) : JSDate :=
  if -maxTimeValue ≤ time ∧ time ≤ maxTimeValue then some time else none

/-- The time `UTC(MakeDate(Day(LocalTime(t)), MakeTime(hour, min, sec, ms)))` that
`setHours(hour, min, sec, ms)` computes on a valid date with numeric arguments, before it
is clipped: the local day is kept, the time within the day replaced. -/
def setHoursTV (tza t hour min sec ms : Int) : Int :=
  UTC tza (MakeDate (Day (LocalTime tza t)) (MakeTime hour min sec ms))

/-- `Date.prototype.setHours(hour, min, sec, ms)`: the new time value, NaN when the
date is invalid, an argument is NaN, or the new time is beyond the range of time
values. -/
def setHours (tza : Int) (d : JSDate) (hour min sec ms : JSNumber) : JSDate :=
  match d, hour, min, sec, ms with
  | some t, some h, some m, some s, some milli => TimeClip (setHoursTV tza t h m s milli)
  | _, _, _, _, _ => none

/-- `Date.prototype.getMinutes()`. -/
def getMinutes (tza : Int) (d : JSDate) : JSNumber :=
  d.map fun t => MinFromTime (LocalTime tza t)

/-- `Date.prototype.setMinutes(min)`: hour, second and millisecond of the local time
are kept; NaN when the date is invalid, the argument is NaN, or the new time is beyond
the range of time values. -/
def setMinutes (tza : Int) (d : JSDate) (min : JSNumber) : JSDate :=
  match d, min with
  | some t, some m =>
    let l := LocalTime tza t
    TimeClip
      (UTC tza (MakeDate (Day l) (MakeTime (HourFromTime l) m (SecFromTime l) (msFromTime l))))
  | _, _ => none

/-- Addition of numbers, NaN absorbing. -/
def numAdd (a b : JSNumber) : JSNumber :=
  match a, b with
  | some x, some y => some (x + y)
  | _, _ => none

/-- Relational `<` on two dates (compared by time value); false when either is NaN. -/
def dateLt (a b : JSDate) : Bool :=
  match a, b with
  | some x, some y => decide (x < y)
  | _, _ => false

/-- Relational `>` on two dates. -/
def dateGt (a b : JSDate) : Bool := dateLt b a

/-! ## Strings: `split` and `parseInt` -/

/-- White space and line terminators stripped by `parseInt` and by string-to-number
conversion. -/
def isStrWhiteSpaceChar (c : Char) : Bool :=
  let n := c.toNat
  n = 0x09 || n = 0x0A || n = 0x0B || n = 0x0C || n = 0x0D || n = 0x20 || n = 0xA0 ||
  n = 0x1680 || (0x2000 ≤ n && n ≤ 0x200A) || n = 0x2028 || n = 0x2029 || n = 0x202F ||
  n = 0x205F || n = 0x3000 || n = 0xFEFF

/-- Value of a character as a digit in radix up to 36. -/
def digitValue (c : Char) : Option Nat :=
  let n := c.toNat
  if 48 ≤ n ∧ n ≤ 57 then some (n - 48)
  else if 97 ≤ n ∧ n ≤ 122 then some (n - 97 + 10)
  else if 65 ≤ n ∧ n ≤ 90 then some (n - 65 + 10)
  else none

/-- The digits of the longest prefix made of radix-`radix` digits. -/
def radixDigits (radix : Nat) : List Char → List Nat
  | [] => []
  | c :: cs =>
    match digitValue c with
    | some d => if d < radix then d :: radixDigits radix cs else []
    | none => []

def digitsToNat (radix : Nat) (ds : List Nat) : Nat :=
  ds.foldl (fun acc d => acc * radix + d) 0

/-- Sign read by `parseInt`, and the remainder of the input. -/
def stripSign : List Char → Int × List Char
  | '-' :: r => (-1, r)
  | '+' :: r => (1, r)
  | s => (1, s)

/-- Radix chosen by `parseInt` without a radix argument, and the remainder. -/
def stripRadixMark : List Char → Nat × List Char
  | '0' :: 'x' :: r => (16, r)
  | '0' :: 'X' :: r => (16, r)
  | s => (10, s)

/-- `parseInt(string)` with no radix argument. `none` as input is `undefined`, which
reads as the text "undefined" and gives NaN. -/
def parseInt (input : Option String) : JSNumber :=
  match input with
  | none => none
  | some str =>
    let s := str.data.dropWhile isStrWhiteSpaceChar
    let (sign, s) := stripSign s
    let (radix, s) := stripRadixMark s
    let z := radixDigits radix s
    if z.isEmpty then none else some (sign * (digitsToNat radix z : Int))

/-- Pieces of a character list between occurrences of the separator. -/
def splitChars (sep : Char) : List Char → List (List Char)
  | [] => [[]]
  | c :: cs =>
    if c = sep then [] :: splitChars sep cs
    else
      match splitChars sep cs with
      | [] => [[c]]
      | p :: ps => (c :: p) :: ps

/-- `String.prototype.split(sep)` for a one-character separator. -/
def split (s : String) (sep : Char) : List String :=
  (splitChars sep s.data).map String.mk

/-! ## `src/models/Appointment.js` -/

abbrev ObjectId := Nat

inductive Status where
  | scheduled | confirmed | inProgress | completed | cancelled | noShow
  deriving DecidableEq, Repr

/-- An appointment document (fields of `appointmentSchema` read by the routes and
statics modelled here). `date` is a valid date, as the schema casts it. -/
structure Appointment where
  _id : ObjectId
  appointmentId : String
  patientId : ObjectId
  doctorId : ObjectId
  date : Int
  time : String
  duration : Int
  status : Status
  deriving DecidableEq, Repr

/-- Lines 91-93 and 114-116: the date copied and set to the hours and minutes read
from the time string. -/
def startOf (tza : Int) (date : Int) (time : String) : JSDate :=
  let startTime : JSDate := some date
  let parts := split time ':'
  setHours tza startTime (parseInt parts[0]?) (parseInt parts[1]?) (some 0) (some 0)

/-- Lines 95-96 and 118-119: a copy of the start moved forward by `duration` minutes. -/
def endOf (tza : Int) (start : JSDate) (duration : Int) : JSDate :=
  let endTime : JSDate := start
  setMinutes tza endTime (numAdd (getMinutes tza endTime) (some duration))

/-- Lines 101-102: the bounds of the date filter. `date.setHours(0, 0, 0, 0)` moves
`date` itself to local midnight and yields the lower bound; `date.setHours(23, 59,
59, 999)` then moves it to the last millisecond of that day and yields the upper
bound. Both are time values for a date at least a day inside the range of time values,
as the dates of documents and requests are; nearer to the limits the bound would be an
invalid date. -/
def queryWindow (tza : Int) (date : Int) : Int × Int :=
  let gte := setHoursTV tza date 0 0 0 0
  let lt := setHoursTV tza gte 23 59 59 999
  (gte, lt)

/-- Lines 98-111: the documents matched by the query, `conflictingAppointments` in the
source. -/
def conflictingAppointments (tza : Int) (store : List Appointment) (doctorId : ObjectId) (date : Int)
    (excludeId : Option ObjectId) : List Appointment :=
  let w := queryWindow tza date
  store.filter fun a =>
    a.doctorId == doctorId
      && (decide (w.1 ≤ a.date) && decide (a.date < w.2))
      && !(a.status == Status.cancelled || a.status == Status.noShow)
      && (match excludeId with
          | some id => a._id != id
          | none => true)

/-- Lines 113-122: the overlap test of one fetched appointment against the candidate
interval. -/
def overlaps (tza : Int) (startTime endTime : JSDate) (appointment : Appointment) : Bool :=
  let appointmentStart := startOf tza appointment.date appointment.time
  let appointmentEnd := endOf tza appointmentStart appointment.duration
  dateLt startTime appointmentEnd && dateGt endTime appointmentStart

/-- `appointmentSchema.statics.checkConflict` (lines 90-123) over a store. -/
def checkConflict (tza : Int) (store : List Appointment) (doctorId : ObjectId)
    (date : Int) (time : String) (duration : Int) (excludeId : Option ObjectId) : Bool :=
  let startTime := startOf tza date time
  let endTime := endOf tza startTime duration
  (conflictingAppointments tza store doctorId date excludeId).any fun appointment =>
    overlaps tza startTime endTime appointment

/-! ## Strings: lower-casing, comparison, conversion to a number -/

/-- Lower-case mapping of one character. Only the letters `A`-`Z` are mapped: the
schedule's day names are ASCII, and the one non-ASCII character whose lower case is an
ASCII letter (U+212A, to `k`) maps to a letter none of them contains. -/
def toLowerChar (c : Char) : Char :=
  if 65 ≤ c.toNat ∧ c.toNat ≤ 90 then Char.ofNat (c.toNat + 32) else c

/-- `String.prototype.toLowerCase()`. -/
def toLowerCase (s : String) : String := String.mk (s.data.map toLowerChar)

/-- UTF-16 code units of a character. -/
def charCodeUnits (c : Char) : List Nat :=
  if c.toNat < 0x10000 then [c.toNat]
  else [0xD800 + (c.toNat - 0x10000) / 0x400, 0xDC00 + (c.toNat - 0x10000) % 0x400]

/-- UTF-16 code units of a string, the sequence relational comparison looks at. -/
def codeUnits (s : String) : List Nat := s.data.flatMap charCodeUnits

/-- Lexicographic `<` on code-unit sequences. -/
def lexLt : List Nat → List Nat → Bool
  | [], [] => false
  | [], _ :: _ => true
  | _ :: _, [] => false
  | x :: xs, y :: ys => if x < y then true else if y < x then false else lexLt xs ys

/-- Relational `a < b` on two strings. -/
def strLt (a b : String) : Bool := lexLt (codeUnits a) (codeUnits b)

/-- The value of `a >= b` for a string `a` and a string-typed field `b`; `none` is an
absent field (`undefined`), which compares as NaN. -/
def strGe (a : String) (b : Option String) : Bool :=
  match b with
  | some b => !strLt a b
  | none => false

/-- The value of `a <= b` for a string `a` and a string-typed field `b`. -/
def strLe (a : String) (b : Option String) : Bool :=
  match b with
  | some b => !strLt b a
  | none => false

/-- The numeric value a string converts to. `finite m e` stands for `m * 10 ^ e`, the
exact value of the literal, not rounded to a double. -/
inductive NumberValue where
  | nan
  | posInf
  | negInf
  | finite (mantissa : Int) (exponent : Int)
  deriving DecidableEq, Repr

def isDecimalDigit (c : Char) : Bool := 48 ≤ c.toNat && c.toNat ≤ 57

/-- A character list with trailing white space removed. -/
def trimEnd : List Char → List Char
  | [] => []
  | c :: cs =>
    match trimEnd cs with
    | [] => if isStrWhiteSpaceChar c then [] else [c]
    | r => c :: r

/-- Digits of a whole non-empty radix-`radix` numeral, `none` if some character is not
such a digit. -/
def wholeDigits (radix : Nat) (cs : List Char) : Option Nat :=
  let ds := radixDigits radix cs
  if cs ≠ [] ∧ ds.length = cs.length then some (digitsToNat radix ds) else none

/-- A numeral with prefix `0x`, `0o` or `0b` (either case): `none` when the text has no
such prefix. -/
def parseNonDecimal : List Char → Option NumberValue
  | '0' :: p :: r =>
    let radix : Option Nat :=
      if p = 'x' ∨ p = 'X' then some 16
      else if p = 'o' ∨ p = 'O' then some 8
      else if p = 'b' ∨ p = 'B' then some 2
      else none
    match radix with
    | some k =>
      match wholeDigits k r with
      | some n => some (NumberValue.finite n 0)
      | none => some NumberValue.nan
    | none => none
  | _ => none

/-- The exponent part of a decimal literal, reaching to the end of the text; an empty
text is exponent 0. -/
def parseExponent : List Char → Option Int
  | [] => some 0
  | c :: r =>
    if c = 'e' ∨ c = 'E' then
      match wholeDigits 10 (stripSign r).2 with
      | some n => some ((stripSign r).1 * (n : Int))
      | none => none
    else none

/-- An unsigned decimal literal: `Infinity`, or digits with an optional fraction and
exponent. -/
def parseUnsignedDecimal (cs : List Char) : NumberValue :=
  if cs = ['I', 'n', 'f', 'i', 'n', 'i', 't', 'y'] then NumberValue.posInf
  else
    let intPart := cs.takeWhile isDecimalDigit
    let r := cs.dropWhile isDecimalDigit
    let fracPart :=
      match r with
      | '.' :: r' => r'.takeWhile isDecimalDigit
      | _ => []
    let rest :=
      match r with
      | '.' :: r' => r'.dropWhile isDecimalDigit
      | _ => r
    if intPart.isEmpty && fracPart.isEmpty then NumberValue.nan
    else
      match parseExponent rest with
      | some e =>
        NumberValue.finite (digitsToNat 10 (radixDigits 10 (intPart ++ fracPart)))
          (e - (fracPart.length : Int))
      | none => NumberValue.nan

def NumberValue.neg : NumberValue → NumberValue
  | NumberValue.nan => NumberValue.nan
  | NumberValue.posInf => NumberValue.negInf
  | NumberValue.negInf => NumberValue.posInf
  | NumberValue.finite m e => NumberValue.finite (-m) e

/-- Conversion of a string to a number (the `StringToNumber` operation): white space
trimmed, the empty text is 0, text that is no numeric literal is NaN. -/
def stringToNumber (s : String) : NumberValue :=
  let cs := trimEnd (s.data.dropWhile isStrWhiteSpaceChar)
  if cs.isEmpty then NumberValue.finite 0 0
  else
    match parseNonDecimal cs with
    | some v => v
    | none =>
      match cs with
      | '-' :: r => (parseUnsignedDecimal r).neg
      | '+' :: r => parseUnsignedDecimal r
      | _ => parseUnsignedDecimal cs

/-- Whether `t ≤ m * 10 ^ e`, for integers `t`, `m`, `e`. -/
def intLeDecimal (t m e : Int) : Bool :=
  if 0 ≤ e then decide (t ≤ m * 10 ^ e.toNat) else decide (t * 10 ^ (-e).toNat ≤ m)

/-- Whether `m * 10 ^ e ≤ t`, for integers `t`, `m`, `e`. -/
def decimalLeInt (m e t : Int) : Bool :=
  if 0 ≤ e then decide (m * 10 ^ e.toNat ≤ t) else decide (m ≤ t * 10 ^ (-e).toNat)

/-- The value of `s >= d` for a string `s` and a date-typed field `d` (`none` when the
field is absent): the string is converted to a number and compared with the time value;
false when either side is NaN. -/
def strGeDate (s : String) (d : Option Int) : Bool :=
  match stringToNumber s, d with
  | NumberValue.finite m e, some t => intLeDecimal t m e
  | NumberValue.posInf, some _ => true
  | _, _ => false

/-- The value of `s <= d` for a string `s` and a date-typed field `d`. -/
def strLeDate (s : String) (d : Option Int) : Bool :=
  match stringToNumber s, d with
  | NumberValue.finite m e, some t => decimalLeInt m e t
  | NumberValue.negInf, some _ => true
  | _, _ => false

/-! ## `src/models/Doctor.js` -/

/-- The values the schema allows for a schedule entry's `day`. -/
inductive WeekDay where
  | monday | tuesday | wednesday | thursday | friday | saturday | sunday
  deriving DecidableEq, Repr

/-- The string stored for a day. -/
def WeekDay.name : WeekDay → String
  | WeekDay.monday => "monday"
  | WeekDay.tuesday => "tuesday"
  | WeekDay.wednesday => "wednesday"
  | WeekDay.thursday => "thursday"
  | WeekDay.friday => "friday"
  | WeekDay.saturday => "saturday"
  | WeekDay.sunday => "sunday"

/-- An entry of `availability.schedule`. `day`, `startTime` and `endTime` are optional in
the schema (`none` when absent); `isAvailable` is read for its truthiness. -/
structure ScheduleEntry where
  day : Option WeekDay
  startTime : Option String
  endTime : Option String
  isAvailable : Bool
  deriving DecidableEq, Repr

/-- An entry of `availability.leaveDates`; the dates are optional in the schema. -/
structure LeaveRange where
  startDate : Option Int
  endDate : Option Int
  reason : Option String
  deriving DecidableEq, Repr

structure Availability where
  schedule : List ScheduleEntry
  isOnLeave : Bool
  leaveDates : List LeaveRange
  deriving DecidableEq, Repr

/-- A doctor document (fields of `doctorSchema` read by the code modelled here). -/
structure Doctor where
  _id : ObjectId
  doctorId : String
  availability : Availability
  deriving DecidableEq, Repr

/-- The value passed as `date` to `isAvailable`: a string, or a `Date` object. -/
inductive DateArg where
  | str (s : String)
  | date (d : JSDate)
  deriving DecidableEq, Repr

/-- An exception thrown inside a handler or a model method: the runtime's TypeError and
RangeError, a failed schema validation on `save`, a duplicate key on a unique index. -/
inductive JSError where
  | typeError (message : String)
  | rangeError (message : String)
  | validationError (message : String)
  | duplicateKey (message : String)
  deriving DecidableEq, Repr

deriving instance DecidableEq for Except

/-- `doctorSchema.methods.isAvailable` (lines 117-132). A `Date` object has no
`toLowerCase` method, so line 118 throws a TypeError for it. -/
def isAvailable (self : Doctor) (date : DateArg) (time : String) : Except JSError Bool :=
  match date with
  | DateArg.date _ => Except.error (JSError.typeError "date.toLowerCase is not a function")
  | DateArg.str date =>
    let dayOfWeek := toLowerCase date
    let schedule := self.availability.schedule.find? fun s =>
      s.day.map WeekDay.name == some dayOfWeek
    match schedule with
    | none => Except.ok false
    | some schedule =>
      if !schedule.isAvailable then Except.ok false
      else
        let isOnLeave := self.availability.leaveDates.any fun leave =>
          strGeDate date leave.startDate && strLeDate date leave.endDate
        if isOnLeave then Except.ok false
        else Except.ok (strGe time schedule.startTime && strLe time schedule.endTime)

/-! ## `src/routes/appointments.js` -/

/-- The day of the week of a local time value, `(Day(t) + 4) mod 7` with 0 for Sunday. -/
def weekDayOf (t : Int) : WeekDay :=
  match ((Day t + 4) % 7).toNat with
  | 0 => WeekDay.sunday
  | 1 => WeekDay.monday
  | 2 => WeekDay.tuesday
  | 3 => WeekDay.wednesday
  | 4 => WeekDay.thursday
  | 5 => WeekDay.friday
  | _ => WeekDay.saturday

/-- The `en-US` weekday name for the option value `long`. -/
def WeekDay.longName : WeekDay → String
  | WeekDay.monday => "Monday"
  | WeekDay.tuesday => "Tuesday"
  | WeekDay.wednesday => "Wednesday"
  | WeekDay.thursday => "Thursday"
  | WeekDay.friday => "Friday"
  | WeekDay.saturday => "Saturday"
  | WeekDay.sunday => "Sunday"

/-- The `en-US` weekday name for the option value `short`. -/
def WeekDay.shortName : WeekDay → String
  | WeekDay.monday => "Mon"
  | WeekDay.tuesday => "Tue"
  | WeekDay.wednesday => "Wed"
  | WeekDay.thursday => "Thu"
  | WeekDay.friday => "Fri"
  | WeekDay.saturday => "Sat"
  | WeekDay.sunday => "Sun"

/-- The `en-US` weekday name for the option value `narrow`. -/
def WeekDay.narrowName : WeekDay → String
  | WeekDay.monday => "M"
  | WeekDay.tuesday => "T"
  | WeekDay.wednesday => "W"
  | WeekDay.thursday => "T"
  | WeekDay.friday => "F"
  | WeekDay.saturday => "S"
  | WeekDay.sunday => "S"

/-- `Date.prototype.toLocaleDateString('en-US', { weekday })` as ECMA-402 defines it: an
invalid date gives the text "Invalid Date"; otherwise the date-time format is built from
the options, and its `weekday` option is read with the allowed values `narrow`, `short`
and `long`, any other value throwing a RangeError. -/
def toLocaleDateString (tza : Int) (d : JSDate) (weekday : String) : Except JSError String :=
  match d with
  | none => Except.ok "Invalid Date"
  | some t =>
    if weekday = "long" then Except.ok (weekDayOf (LocalTime tza t)).longName
    else if weekday = "short" then Except.ok (weekDayOf (LocalTime tza t)).shortName
    else if weekday = "narrow" then Except.ok (weekDayOf (LocalTime tza t)).narrowName
    else
      Except.error (JSError.rangeError
        ("Value " ++ weekday ++ " out of range for Intl.DateTimeFormat options property weekday"))

/-- Line 162: the day-of-week token the creation route derives from the appointment date. -/
def dayOfWeek (tza : Int) (appointmentDate : Int) : Except JSError String :=
  toLocaleDateString tza (some appointmentDate) "lowercase"

def isDigit05 (c : Char) : Bool := 48 ≤ c.toNat && c.toNat ≤ 53

/-- The time validator of lines 124 and 198: the text matches
`^([0-1]?[0-9]|2[0-3]):[0-5][0-9]$`. -/
def matchesTimeRegex (s : String) : Bool :=
  match s.data with
  | [h, ':', m1, m2] => isDecimalDigit h && isDigit05 m1 && isDecimalDigit m2
  | [h1, h2, ':', m1, m2] =>
    (((h1 = '0' || h1 = '1') && isDecimalDigit h2) || (h1 = '2' && 48 ≤ h2.toNat && h2.toNat ≤ 51))
      && isDigit05 m1 && isDecimalDigit m2
  | _ => false

/-- A patient document (the fields the appointment routes read). -/
structure Patient where
  _id : ObjectId
  patientId : String
  deriving DecidableEq, Repr

/-- The collections behind the models. -/
structure Database where
  appointments : List Appointment
  doctors : List Doctor
  patients : List Patient
  deriving DecidableEq, Repr

inductive Role where
  | admin | doctor | patient
  deriving DecidableEq, Repr

/-- The authenticated user the middleware attaches to the request (`req.user`). -/
structure User where
  role : Role
  userId : String
  deriving DecidableEq, Repr

/-- What a handler answers. -/
inductive Response where
  | validationErrors
  | error (status : Nat) (error : String)
  | created (appointment : Appointment)
  | updated (appointment : Appointment)
  deriving DecidableEq, Repr

/-- The HTTP status of a response. -/
def Response.status : Response → Nat
  | Response.validationErrors => 400
  | Response.error status _ => status
  | Response.created _ => 201
  | Response.updated _ => 200

/-- `String.prototype.padStart(targetLength, padString)` for a one-character pad. -/
def padStart (s : String) (targetLength : Nat) (pad : Char) : String :=
  String.mk (List.replicate (targetLength - s.length) pad ++ s.data)

/-- `appointmentSchema.statics.generateAppointmentId` (Appointment.js lines 84-87) on a
collection holding `count` documents. -/
def generateAppointmentId (count : Nat) : String :=
  "A" ++ padStart (String.mk (Nat.toDigits 10 (count + 1))) 5 '0'

/-- Schema validation run by `save`: `duration` within `min: 15` and `max: 120`, the
required strings not empty. -/
def validateAppointment (a : Appointment) : Bool :=
  decide (15 ≤ a.duration) && decide (a.duration ≤ 120) && a.time != "" && a.appointmentId != ""

/-- The `_id` given to a new document: one not in the collection. -/
def freshId (store : List Appointment) : ObjectId :=
  (store.map fun a => a._id).foldr max 0 + 1

/-- `save()` of a new appointment: validation, then the insert, which the unique index on
`appointmentId` rejects for a value already stored. -/
def insertAppointment (store : List Appointment) (a : Appointment) :
    Except JSError (List Appointment) :=
  if !validateAppointment a then
    Except.error (JSError.validationError "Appointment validation failed")
  else if store.any fun b => b.appointmentId == a.appointmentId then
    Except.error (JSError.duplicateKey "E11000 duplicate key error: appointmentId")
  else Except.ok (store ++ [a])

/-- The body of a creation request as the handler reads it. `date` is the time value of
`new Date(req.body.date)` for a date text that passed `isISO8601` and parses; `fee` and
`type`, which take no part in the checks, are left out; `duration` is `none` when absent
(the handler then takes 30). -/
structure CreateBody where
  patientId : String
  doctorId : String
  date : Int
  time : String
  reason : String
  duration : Option Int
  deriving DecidableEq, Repr

/-- The validators of lines 121-126 on the fields kept in `CreateBody`. -/
def validateCreate (body : CreateBody) : Bool :=
  body.patientId != "" && body.doctorId != "" && matchesTimeRegex body.time && body.reason != ""

/-- Handler of `POST /api/appointments` (lines 127-191), run after the `auth` and
`authorize` middleware: the response and the database it leaves. Every exception is
caught at line 187 and answered with status 500. -/
def createAppointment (tza : Int) (db : Database) (body : CreateBody) : Response × Database :=
  if !validateCreate body then (Response.validationErrors, db)
  else
    let patient := db.patients.find? fun p => p.patientId == body.patientId
    let doctor := db.doctors.find? fun d => d.doctorId == body.doctorId
    match patient, doctor with
    | none, _ => (Response.error 404 "Patient not found", db)
    | some _, none => (Response.error 404 "Doctor not found", db)
    | some patient, some doctor =>
      let duration := body.duration.getD 30
      let hasConflict :=
        checkConflict tza db.appointments doctor._id body.date body.time duration none
      if hasConflict then
        (Response.error 400 "Appointment time conflicts with existing appointment", db)
      else
        let appointmentDate := body.date
        match dayOfWeek tza appointmentDate with
        | Except.error _ => (Response.error 500 "Server error", db)
        | Except.ok dayOfWeek =>
          match isAvailable doctor (DateArg.str dayOfWeek) body.time with
          | Except.error _ => (Response.error 500 "Server error", db)
          | Except.ok false => (Response.error 400 "Doctor is not available at this time", db)
          | Except.ok true =>
            let appointment : Appointment :=
              { _id := freshId db.appointments,
                appointmentId := generateAppointmentId db.appointments.length,
                patientId := patient._id, doctorId := doctor._id, date := appointmentDate,
                time := body.time, duration := duration, status := Status.scheduled }
            match insertAppointment db.appointments appointment with
            | Except.error _ => (Response.error 500 "Server error", db)
            | Except.ok appointments =>
              (Response.created appointment, { db with appointments := appointments })

/-- The body of an update request: the keys that bear on scheduling, each `none` when
absent. `date` is the time value of `new Date(req.body.date)`. -/
structure UpdateBody where
  date : Option Int
  time : Option String
  duration : Option Int
  doctorId : Option ObjectId
  status : Option Status
  deriving DecidableEq, Repr

/-- Lines 240-246: every key of the body assigned to the document. -/
def assignBody (body : UpdateBody) (appointment : Appointment) : Appointment :=
  { appointment with
    date := body.date.getD appointment.date
    time := body.time.getD appointment.time
    duration := body.duration.getD appointment.duration
    doctorId := body.doctorId.getD appointment.doctorId
    status := body.status.getD appointment.status }

/-- Handler of `PUT /api/appointments/:id` (lines 201-258), run after the middleware.
The conflict check runs only when the body has a date or a time; when it has no date the
document's own `date` object is handed to `checkConflict`, which leaves it at the last
millisecond of its day in the document answered, while `save` writes the assigned keys
only. -/
def updateAppointment (tza : Int) (db : Database) (user : User) (id : ObjectId)
    (body : UpdateBody) : Response × Database :=
  if (match body.time with
      | some t => !matchesTimeRegex t
      | none => false) then (Response.validationErrors, db)
  else
    match db.appointments.find? fun a => a._id == id with
    | none => (Response.error 404 "Appointment not found", db)
    | some appointment =>
      if user.role == Role.doctor &&
          (match db.doctors.find? fun d => d.doctorId == user.userId with
           | none => true
           | some doctor => appointment.doctorId != doctor._id) then
        (Response.error 403 "Access denied", db)
      else
        let checked := body.date.isSome || body.time.isSome
        let newDate := body.date.getD appointment.date
        let newTime := body.time.getD appointment.time
        let newDuration :=
          match body.duration with
          | some d => if d = 0 then appointment.duration else d
          | none => appointment.duration
        if checked &&
            checkConflict tza db.appointments appointment.doctorId newDate newTime newDuration
              (some appointment._id) then
          (Response.error 400 "Appointment time conflicts with existing appointment", db)
        else
          let inMemory : Appointment :=
            if checked && body.date.isNone then
              { appointment with date := (queryWindow tza appointment.date).2 }
            else appointment
          if !validateAppointment (assignBody body inMemory) then
            (Response.error 500 "Server error", db)
          else
            (Response.updated (assignBody body inMemory),
              { db with
                appointments := db.appointments.map fun a =>
                  if a._id == id then assignBody body appointment else a })

/-- Handler of `PUT /api/appointments/:id/status` (lines 266-304), run after the
middleware, for a body whose `status` passed the `isIn` validator. No conflict check is
made. -/
def updateStatus (db : Database) (user : User) (id : ObjectId) (status : Status) :
    Response × Database :=
  match db.appointments.find? fun a => a._id == id with
  | none => (Response.error 404 "Appointment not found", db)
  | some appointment =>
    if user.role == Role.doctor &&
        (match db.doctors.find? fun d => d.doctorId == user.userId with
         | none => true
         | some doctor => appointment.doctorId != doctor._id) then
      (Response.error 403 "Access denied", db)
    else if !validateAppointment { appointment with status := status } then
      (Response.error 500 "Server error", db)
    else
      (Response.updated { appointment with status := status },
        { db with
          appointments := db.appointments.map fun a =>
            if a._id == id then { appointment with status := status } else a })

/-- What the delete handler answers. -/
inductive DeleteResponse where
  | error (status : Nat) (error : String)
  | deleted
  deriving DecidableEq, Repr

/-- Handler of `DELETE /api/appointments/:id` (lines 448-462), run after the middleware
(admin only): the document found by id is removed. -/
def deleteAppointment (db : Database) (id : ObjectId) : DeleteResponse × Database :=
  match db.appointments.find? fun a => a._id == id with
  | none => (DeleteResponse.error 404 "Appointment not found", db)
  | some appointment =>
    (DeleteResponse.deleted,
      { db with appointments := db.appointments.filter fun a => a._id != appointment._id })

/-- The messages of the validators of lines 121-126 that fail on a creation body, in the
order of the chain (fields kept in `CreateBody`). -/
def createErrors (body : CreateBody) : List String :=
  (if body.patientId != "" then [] else ["Patient ID is required"]) ++
  (if body.doctorId != "" then [] else ["Doctor ID is required"]) ++
  (if matchesTimeRegex body.time then [] else ["Valid time format (HH:MM) is required"]) ++
  (if body.reason != "" then [] else ["Reason is required"])

/-- Lines 134 and 149-154: the duration the creation handler hands to `checkConflict`. -/
def createDuration (body : CreateBody) : Int := body.duration.getD 30

/-- Line 225: the duration the update handler hands to `checkConflict`,
`req.body.duration || appointment.duration`. -/
def updateDuration (body : UpdateBody) (appointment : Appointment) : Int :=
  match body.duration with
  | some d => if d = 0 then appointment.duration else d
  | none => appointment.duration

/-- The fields the list routes are asked to sort by in this model. -/
inductive SortField where
  | date | time | duration | appointmentId
  deriving DecidableEq, Repr

/-- The query string of `GET /api/appointments` as the handler reads it (line 15), each
parameter `none` when absent; page and limit are the numbers their texts convert to. -/
structure ListQuery where
  page : Option Nat
  limit : Option Nat
  status : Option Status
  date : Option Int
  doctorId : Option ObjectId
  patientId : Option ObjectId
  sortBy : Option SortField
  sortOrder : Option String
  deriving DecidableEq, Repr

/-- The filter object `query` built at lines 17-56; `date` holds the bounds of `$gte` and
`$lte`. -/
structure AppointmentFilter where
  status : Option Status
  date : Option (Int × Int)
  doctorId : Option ObjectId
  patientId : Option ObjectId
  deriving DecidableEq, Repr

/-- Whether a document matches the filter. -/
def AppointmentFilter.test (f : AppointmentFilter) (a : Appointment) : Bool :=
  (match f.status with
   | some s => a.status == s
   | none => true) &&
  (match f.date with
   | some w => decide (w.1 ≤ a.date) && decide (a.date ≤ w.2)
   | none => true) &&
  (match f.doctorId with
   | some d => a.doctorId == d
   | none => true) &&
  (match f.patientId with
   | some p => a.patientId == p
   | none => true)

/-- Lines 17-56: the filter from the query parameters, then the role-based part, which
overrides `doctorId` (or `patientId`) only when a record is found for the user. -/
def listFilter (tza : Int) (db : Database) (user : User) (q : ListQuery) : AppointmentFilter :=
  let query : AppointmentFilter :=
    { status := q.status,
      date := q.date.map fun d => (setHoursTV tza d 0 0 0 0, setHoursTV tza d 23 59 59 999),
      doctorId := q.doctorId, patientId := q.patientId }
  match user.role with
  | Role.doctor =>
    match db.doctors.find? fun d => d.doctorId == user.userId with
    | some doctor => { query with doctorId := some doctor._id }
    | none => query
  | Role.patient =>
    match db.patients.find? fun p => p.patientId == user.userId with
    | some patient => { query with patientId := some patient._id }
    | none => query
  | Role.admin => query

/-- The order of two documents on the sort field, ascending. -/
def fieldLe (field : SortField) (a b : Appointment) : Bool :=
  match field with
  | SortField.date => decide (a.date ≤ b.date)
  | SortField.time => !decide (b.time < a.time)
  | SortField.duration => decide (a.duration ≤ b.duration)
  | SortField.appointmentId => !decide (b.appointmentId < a.appointmentId)

/-- Lines 58-59: the order asked for, descending when `sortOrder` is `desc`, which is also
the default. -/
def sortLe (q : ListQuery) (a b : Appointment) : Prop :=
  if q.sortOrder.getD "desc" = "desc" then fieldLe (q.sortBy.getD SortField.date) b a = true
  else fieldLe (q.sortBy.getD SortField.date) a b = true

instance (q : ListQuery) : DecidableRel (sortLe q) := fun a b => by
  unfold sortLe; infer_instance

/-- The documents `Appointment.find(query)` matches, in the order of the collection. -/
def findMatches (tza : Int) (db : Database) (user : User) (q : ListQuery) : List Appointment :=
  db.appointments.filter (listFilter tza db user q).test

/-- One answer the database may give to the sorted query: the matching documents in the
order asked for, documents equal on the sort field in the order of the collection. The
database is free to order such documents otherwise, and anew in every query; the answers
it may give are those of `isSortedAnswer`. -/
def sortedMatches (tza : Int) (db : Database) (user : User) (q : ListQuery) :
    List Appointment :=
  (db.appointments.filter (listFilter tza db user q).test).insertionSort (sortLe q)

/-- `Math.ceil(total / limit)` of line 72; `none` stands for the values (Infinity, NaN) a
zero limit gives, which the JSON answer shows as null. -/
def totalPages (total limit : Nat) : Option Nat :=
  if limit = 0 then none else some ⌈(total : ℚ) / (limit : ℚ)⌉₊

/-- Lines 65-66: `skip((page - 1) * limit)` then `limit(limit * 1)`; a limit of 0 means
no limit. -/
def pageDocs (sorted : List Appointment) (page limit : Nat) : List Appointment :=
  if limit = 0 then sorted.drop ((page - 1) * limit)
  else (sorted.drop ((page - 1) * limit)).take limit

/-- What a list route answers. -/
inductive ListResponse where
  | error (status : Nat) (error : String)
  | ok (appointments : List Appointment) (totalPages : Option Nat) (currentPage : Nat)
      (total : Nat)

/-- Handler of `GET /api/appointments` (lines 13-80), run after `auth`, on the answer
`sortedMatches` of the database. A page 0 with a positive limit asks for a negative skip,
which the database refuses. -/
def listAppointments (tza : Int) (db : Database) (user : User) (q : ListQuery) :
    ListResponse :=
  let page := q.page.getD 1
  let limit := q.limit.getD 10
  if page = 0 ∧ 0 < limit then ListResponse.error 500 "Server error"
  else
    let sorted := sortedMatches tza db user q
    ListResponse.ok (pageDocs sorted page limit) (totalPages sorted.length limit) page
      sorted.length

/-- The appointments of an answer, none for an error. -/
def ListResponse.appointments : ListResponse → List Appointment
  | ListResponse.error _ _ => []
  | ListResponse.ok appointments _ _ _ => appointments

/-- An answer the database may give to `find(query).sort(sortOptions)`: the matching
documents, each as often as the collection holds it, in the order asked for. The order of
documents equal on the sort field is the database's choice, made anew by every query. -/
def isSortedAnswer (tza : Int) (db : Database) (user : User) (q : ListQuery)
    (docs : List Appointment) : Prop :=
  docs.Perm (findMatches tza db user q) ∧ docs.Sorted (sortLe q)

instance (tza : Int) (db : Database) (user : User) (q : ListQuery) (docs : List Appointment) :
    Decidable (isSortedAnswer tza db user q docs) := by
  unfold isSortedAnswer; infer_instance

/-- Lines 61-75 on the documents `docs` the database has sorted for the query: `skip`,
`limit`, and the answer with the counts. -/
def listAnswer (docs : List Appointment) (q : ListQuery) : ListResponse :=
  let page := q.page.getD 1
  let limit := q.limit.getD 10
  if page = 0 ∧ 0 < limit then ListResponse.error 500 "Server error"
  else ListResponse.ok (pageDocs docs page limit) (totalPages docs.length limit) page docs.length

/-- `checkConflict` with the state of its `date` argument made explicit: the result, and
the time value the `Date` object passed as `date` holds when the call returns (lines
101-102 call `setHours` on that object itself). -/
def checkConflictRun (tza : Int) (store : List Appointment) (doctorId : ObjectId)
    (date : Int) (time : String) (duration : Int) (excludeId : Option ObjectId) : Bool × Int :=
  (checkConflict tza store doctorId date time duration excludeId, (queryWindow tza date).2)

/-! ## Vocabulary of the statements -/

/-- Local midnight of the day a time value falls on. -/
def localMidnight (tza date : Int) : Int := date - (date + tza) % msPerDay

/-- Hours read from a time string: `parseInt` of the text before the first colon. -/
def hoursOf (time : String) : JSNumber := parseInt (split time ':')[0]?

/-- Minutes read from a time string: `parseInt` of the text between the first and the
second colon. -/
def minutesOf (time : String) : JSNumber := parseInt (split time ':')[1]?

/-- The instant "date at time": local midnight of the date plus the hours and minutes of
the time string; undefined when either does not read as a number. -/
def atTime (tza date : Int) (time : String) : Option Int :=
  match hoursOf time, minutesOf time with
  | some h, some m => some (localMidnight tza date + h * msPerHour + m * msPerMinute)
  | _, _ => none

/-- A time lies within the range of time values, 8.64e15 ms on either side of the
epoch. -/
def isTimeValue (t : Int) : Prop := -maxTimeValue ≤ t ∧ t ≤ maxTimeValue

instance (t : Int) : Decidable (isTimeValue t) :=
  inferInstanceAs (Decidable (-maxTimeValue ≤ t ∧ t ≤ maxTimeValue))

/-- A date at least two days inside the range of time values, as every date of a year
from -270000 to 270000 is: the times of its local day and of the day after are time
values. -/
def clearOfLimits (date : Int) : Prop :=
  -maxTimeValue + 2 * msPerDay ≤ date ∧ date ≤ maxTimeValue - 2 * msPerDay

instance (date : Int) : Decidable (clearOfLimits date) :=
  inferInstanceAs
    (Decidable (-maxTimeValue + 2 * msPerDay ≤ date ∧ date ≤ maxTimeValue - 2 * msPerDay))

/-- The time string reads as a time of day: hours from 0 to 23 and minutes from 0 to 59,
as `checkConflict` reads them. -/
def readsAsTimeOfDay (time : String) : Prop :=
  ∃ h m : Int, hoursOf time = some h ∧ minutesOf time = some m ∧
    0 ≤ h ∧ h < 24 ∧ 0 ≤ m ∧ m < 60

/-- Two time values fall on the same local calendar day. -/
def sameLocalDay (tza a b : Int) : Prop := Day (LocalTime tza a) = Day (LocalTime tza b)

instance (tza a b : Int) : Decidable (sameLocalDay tza a b) :=
  inferInstanceAs (Decidable (Day (LocalTime tza a) = Day (LocalTime tza b)))

/-- An appointment takes part in conflict detection: neither cancelled nor no-show. -/
def isActive (a : Appointment) : Bool :=
  !(a.status == Status.cancelled || a.status == Status.noShow)

/-- The entry `e` is the first entry of the schedule whose day is `d`. -/
def firstEntryFor (schedule : List ScheduleEntry) (d : WeekDay) (e : ScheduleEntry) : Prop :=
  ∃ pre post, schedule = pre ++ e :: post ∧ (∀ x ∈ pre, x.day ≠ some d) ∧ e.day = some d

/-- The character of a decimal digit. -/
def digitChar (d : Nat) : Char := Char.ofNat (48 + d)

/-- The zero-padded text `HH:MM` of an hour and a minute below 100. -/
def hhmm (h m : Nat) : String :=
  String.mk [digitChar (h / 10), digitChar (h % 10), ':', digitChar (m / 10), digitChar (m % 10)]

/-- Minute of the day of a time text, `60 * hour + minute`, read as `checkConflict`
reads hours and minutes. -/
def minuteOfDay (time : String) : Option Int :=
  match hoursOf time, minutesOf time with
  | some h, some m => some (60 * h + m)
  | _, _ => none

/-- The doctor with the schedule replaced. -/
def withSchedule (self : Doctor) (schedule : List ScheduleEntry) : Doctor :=
  { self with availability := { self.availability with schedule := schedule } }

/-- The text `H:MM` of a one-digit hour and a minute below 100. -/
def hmm1 (h m : Nat) : String :=
  String.mk [digitChar h, ':', digitChar (m / 10), digitChar (m % 10)]

/-- The decimal digits of a natural number as text, most significant first. -/
def decimalText (n : Nat) : List Char :=
  if n = 0 then ['0'] else (Nat.digits 10 n).reverse.map digitChar

/-- The intervals of two appointments overlap, by the test of `checkConflict`. -/
def intervalsOverlap (tza : Int) (a b : Appointment) : Bool :=
  overlaps tza (startOf tza a.date a.time) (endOf tza (startOf tza a.date a.time) a.duration) b

/-- No two distinct documents of the store, of the same doctor and both neither cancelled
nor no-show, have overlapping intervals. -/
def noDoubleBooking (tza : Int) (store : List Appointment) : Bool :=
  store.all fun a => store.all fun b =>
    a._id == b._id || a.doctorId != b.doctorId || !isActive a || !isActive b ||
      !intervalsOverlap tza a b

/-- The databases reached from one without appointments by creations, each storing a
document that carries the generated id, and deletions. -/
inductive Reachable : Database → Prop where
  | init (doctors : List Doctor) (patients : List Patient) :
      Reachable { appointments := [], doctors := doctors, patients := patients }
  | create (db : Database) (a : Appointment) (appointments : List Appointment) :
      Reachable db → a.appointmentId = generateAppointmentId db.appointments.length →
      insertAppointment db.appointments a = Except.ok appointments →
      Reachable { db with appointments := appointments }
  | delete (db : Database) (id : ObjectId) :
      Reachable db → Reachable (deleteAppointment db id).2

/-! ## Concrete data of the scenarios -/

/-- The instant 2024-06-10T00:00:00.000Z, the value of `new Date("2024-06-10")`; a
Monday. -/
def scenarioDate : Int := 1717977600000

/-- Active appointment of doctor `D` at 14:00 for 30 minutes, dated `scenarioDate`. -/
def scenarioActive (D : ObjectId) : Appointment :=
  { _id := 1, appointmentId := "A00001", patientId := 1, doctorId := D,
    date := scenarioDate, time := "14:00", duration := 30, status := Status.scheduled }

/-- Cancelled appointment of doctor `D` at 15:00 for 30 minutes, dated `scenarioDate`. -/
def scenarioCancelled (D : ObjectId) : Appointment :=
  { _id := 2, appointmentId := "A00002", patientId := 2, doctorId := D,
    date := scenarioDate, time := "15:00", duration := 30, status := Status.cancelled }

/-- The store of the scenario of 2024-06-10. -/
def scenarioStore (D : ObjectId) : List Appointment :=
  [scenarioActive D, scenarioCancelled D]

/-- Appointment of doctor 10 at 10:00 for 30 minutes, dated `scenarioDate`. -/
def tenOClock : Appointment :=
  { _id := 3, appointmentId := "A00003", patientId := 1, doctorId := 10,
    date := scenarioDate, time := "10:00", duration := 30, status := Status.confirmed }

/-- Appointment of doctor 10 at 10:00 for 30 minutes whose stored date is the first
millisecond of 2024-06-10 (UTC). -/
def dayStartAppt : Appointment :=
  { _id := 4, appointmentId := "A00004", patientId := 1, doctorId := 10,
    date := scenarioDate, time := "10:00", duration := 30, status := Status.scheduled }

/-- Appointment of doctor 10 at 10:00 for 30 minutes whose stored date is the last
millisecond of 2024-06-10 (UTC), 23:59:59.999. -/
def dayEndAppt : Appointment :=
  { _id := 5, appointmentId := "A00005", patientId := 2, doctorId := 10,
    date := scenarioDate + 86399999, time := "10:00", duration := 30,
    status := Status.scheduled }

/-- Schedule entry: Monday 09:00 to 17:00, available. -/
def mondayEntry : ScheduleEntry :=
  { day := some WeekDay.monday, startTime := some "09:00", endTime := some "17:00",
    isAvailable := true }

/-- Schedule entry: Saturday 09:00 to 13:00, not available. -/
def saturdayOff : ScheduleEntry :=
  { day := some WeekDay.saturday, startTime := some "09:00", endTime := some "13:00",
    isAvailable := false }

/-- Doctor open on Mondays 09:00-17:00, `isOnLeave` false, with a leave range from
2024-06-09 to 2024-06-11 (UTC midnights) that covers `scenarioDate`. -/
def leaveDoctor : Doctor :=
  { _id := 10, doctorId := "D00001",
    availability :=
      { schedule := [mondayEntry, saturdayOff], isOnLeave := false,
        leaveDates :=
          [{ startDate := some 1717891200000, endDate := some 1718064000000,
             reason := some "conference" }] } }

/-- Doctor open on Mondays 09:00-17:00 with `isOnLeave` true and no leave range. -/
def flaggedDoctor : Doctor :=
  { _id := 11, doctorId := "D00002",
    availability := { schedule := [mondayEntry, saturdayOff], isOnLeave := true, leaveDates := [] } }

/-- Patient `P00001`. -/
def patientOne : Patient := { _id := 1, patientId := "P00001" }

/-- Appointment of doctor 10 on Monday 2024-06-10 at 18:00 for 30 minutes, after the
doctor's hours. -/
def lateAppt : Appointment :=
  { _id := 6, appointmentId := "A00006", patientId := 1, doctorId := 10,
    date := scenarioDate, time := "18:00", duration := 30, status := Status.confirmed }

/-- A database with the doctor of the leave scenario (`_id` 10, open on Mondays
09:00-17:00), patient `P00001`, and two appointments of that doctor on Monday
2024-06-10: 14:00-14:30 and 18:00-18:30. -/
def routeDb : Database :=
  { appointments := [scenarioActive 10, lateAppt], doctors := [leaveDoctor],
    patients := [patientOne] }

/-- A creation request for patient `P00001` with doctor `D00001` on 2024-06-10 at the
given time, for the default duration. -/
def createAt (time : String) : CreateBody :=
  { patientId := "P00001", doctorId := "D00001", date := scenarioDate, time := time,
    reason := "checkup", duration := none }

/-- An update request that changes the time only. -/
def moveTo (time : String) : UpdateBody :=
  { date := none, time := some time, duration := none, doctorId := none, status := none }

def adminUser : User := { role := Role.admin, userId := "admin" }

/-- Monday entry listed after `mondayEntry`: same day, switched off. -/
def mondayLater : ScheduleEntry :=
  { day := some WeekDay.monday, startTime := some "12:00", endTime := some "13:00",
    isAvailable := false }

/-- A creation request for 12:00 with a duration of 500 minutes. -/
def longRequest : CreateBody := { createAt "12:00" with duration := some 500 }
/-- An update request moving an appointment to 12:00 with a duration of 500 minutes. -/
def longMove : UpdateBody :=
  { date := none, time := some "12:00", duration := some 500, doctorId := none, status := none }

/-- The first appointment of the seed data: `A00001`, 10:00. -/
def seedFirst : Appointment :=
  { _id := 1, appointmentId := generateAppointmentId 0, patientId := 1, doctorId := 10,
    date := scenarioDate, time := "10:00", duration := 30, status := Status.confirmed }

/-- The second appointment of the seed data: `A00002`, 14:00. -/
def seedSecond : Appointment :=
  { _id := 2, appointmentId := generateAppointmentId 1, patientId := 1, doctorId := 10,
    date := scenarioDate, time := "14:00", duration := 30, status := Status.scheduled }

/-- The database after two creations. -/
def twoCreated : Database :=
  { appointments := [seedFirst, seedSecond], doctors := [leaveDoctor], patients := [patientOne] }

/-- A user with role doctor for whom no doctor record exists. -/
def ghostDoctor : User := { role := Role.doctor, userId := "D99999" }

/-- A user with role patient for whom no patient record exists. -/
def ghostPatient : User := { role := Role.patient, userId := "P99999" }

/-- The query string without parameters. -/
def noParams : ListQuery :=
  { page := none, limit := none, status := none, date := none, doctorId := none,
    patientId := none, sortBy := none, sortOrder := none }

/-- Appointment of doctor 10 on 2024-06-10 at 14:30 for 30 minutes. -/
def halfPast : Appointment :=
  { _id := 7, appointmentId := "A00007", patientId := 2, doctorId := 10,
    date := scenarioDate, time := "14:30", duration := 30, status := Status.scheduled }

/-- Doctor 10 booked 14:00-14:30 and 14:30-15:00 on 2024-06-10. -/
def adjacentDb : Database :=
  { appointments := [scenarioActive 10, halfPast], doctors := [leaveDoctor],
    patients := [patientOne] }

/-- An update request that changes the duration only. -/
def extendTo (duration : Int) : UpdateBody :=
  { date := none, time := none, duration := some duration, doctorId := none, status := none }

/-- Active appointment of doctor 10 on 2024-06-10 at 15:00 for 30 minutes, booked into the
slot the cancelled one left. -/
def rebooked : Appointment :=
  { _id := 8, appointmentId := "A00008", patientId := 1, doctorId := 10,
    date := scenarioDate, time := "15:00", duration := 30, status := Status.scheduled }

/-- The cancelled 15:00 appointment and the one booked into its slot. -/
def rebookedDb : Database :=
  { appointments := [scenarioCancelled 10, rebooked], doctors := [leaveDoctor],
    patients := [patientOne] }

/-! ## Date arithmetic -/

theorem TimeClip_eq_some_iff (t u : Int) : TimeClip t = some u ↔ t = u ∧ isTimeValue t := by
  unfold TimeClip isTimeValue
  split_ifs with h
  · simp [h]
  · simp [h]

theorem TimeClip_of_isTimeValue (t : Int) (h : isTimeValue t) : TimeClip t = some t :=
  (TimeClip_eq_some_iff t t).2 ⟨rfl, h⟩

theorem TimeClip_eq_none_iff (t : Int) : TimeClip t = none ↔ ¬ isTimeValue t := by
  unfold TimeClip isTimeValue
  split_ifs with h
  · simp [h]
  · simp [h]

theorem endOf_some (tza s d : Int) : endOf tza (some s) d = TimeClip (s + d * msPerMinute) := by
  simp only [endOf, setMinutes, getMinutes, numAdd, Option.map, LocalTime, UTC, MakeDate, MakeTime,
    Day, HourFromTime, MinFromTime, SecFromTime, msFromTime, msPerDay, msPerHour, msPerMinute,
    msPerSecond]
  congr 1
  omega

theorem endOf_none (tza d : Int) : endOf tza none d = none := by
  simp [endOf, setMinutes]

theorem startOf_eq_clip (tza date : Int) (time : String) :
    startOf tza date time = (atTime tza date time).bind TimeClip := by
  unfold startOf atTime hoursOf minutesOf
  cases h1 : parseInt (split time ':')[0]? <;> cases h2 : parseInt (split time ':')[1]? <;>
    simp only [setHours, h1, h2, Option.bind]
  congr 1
  simp only [setHoursTV, localMidnight, UTC, MakeDate, MakeTime, Day, LocalTime,
      msPerDay, msPerHour, msPerMinute, msPerSecond]
  omega

theorem startOf_eq_some_iff (tza date : Int) (time : String) (cs : Int) :
    startOf tza date time = some cs ↔ atTime tza date time = some cs ∧ isTimeValue cs := by
  rw [startOf_eq_clip]
  cases h : atTime tza date time with
  | none => simp
  | some x =>
    simp only [Option.bind, TimeClip_eq_some_iff, Option.some.injEq]
    constructor
    · rintro ⟨rfl, h2⟩
      exact ⟨rfl, h2⟩
    · rintro ⟨rfl, h2⟩
      exact ⟨rfl, h2⟩

theorem startOf_of_atTime (tza date : Int) (time : String) (cs : Int)
    (h : atTime tza date time = some cs) (hr : isTimeValue cs) :
    startOf tza date time = some cs :=
  (startOf_eq_some_iff tza date time cs).2 ⟨h, hr⟩

theorem endOf_eq_some_iff (tza s d e : Int) :
    endOf tza (some s) d = some e ↔ e = s + d * msPerMinute ∧ isTimeValue e := by
  rw [endOf_some, TimeClip_eq_some_iff]
  constructor
  · rintro ⟨rfl, h⟩
    exact ⟨rfl, h⟩
  · rintro ⟨rfl, h⟩
    exact ⟨rfl, h⟩

/-- The day of a date clear of the limits: local midnight lies within a day before it. -/
theorem localMidnight_bounds (tza date : Int) :
    date - msPerDay < localMidnight tza date ∧ localMidnight tza date ≤ date := by
  simp only [localMidnight, msPerDay]
  omega

theorem queryWindow_eq (tza date : Int) :
    queryWindow tza date = (localMidnight tza date, localMidnight tza date + (msPerDay - 1)) := by
  simp only [queryWindow, setHoursTV, localMidnight, UTC, MakeDate, MakeTime, Day, LocalTime,
    msPerDay, msPerHour, msPerMinute, msPerSecond, Prod.mk.injEq]
  omega

/-- For a date clear of the limits the two `setHours` calls of the date filter give the
bounds of `queryWindow`, unclipped. -/
theorem setHours_day_bounds (tza date : Int) (h : clearOfLimits date) :
    setHours tza (some date) (some 0) (some 0) (some 0) (some 0)
      = some (queryWindow tza date).1 ∧
    setHours tza (some (queryWindow tza date).1) (some 23) (some 59) (some 59) (some 999)
      = some (queryWindow tza date).2 := by
  have hb := localMidnight_bounds tza date
  have hq := queryWindow_eq tza date
  simp only [clearOfLimits, maxTimeValue, msPerDay] at h
  simp only [msPerDay] at hb
  constructor
  · simp only [setHours, queryWindow]
    apply TimeClip_of_isTimeValue
    have h1 : setHoursTV tza date 0 0 0 0 = localMidnight tza date := by
      have := congrArg Prod.fst hq
      simpa [queryWindow] using this
    rw [h1]
    simp only [isTimeValue, maxTimeValue]
    omega
  · simp only [setHours]
    have h2 : setHoursTV tza (queryWindow tza date).1 23 59 59 999 = (queryWindow tza date).2 := by
      simp only [queryWindow]
    rw [h2, hq]
    apply TimeClip_of_isTimeValue
    simp only [isTimeValue, maxTimeValue, msPerDay]
    omega

theorem sameLocalDay_of_window (tza date x : Int)
    (h1 : (queryWindow tza date).1 ≤ x) (h2 : x < (queryWindow tza date).2) :
    sameLocalDay tza x date := by
  rw [queryWindow_eq] at h1 h2
  simp only [localMidnight, msPerDay] at h1 h2
  simp only [sameLocalDay, Day, LocalTime, msPerDay]
  omega

theorem window_of_sameLocalDay (tza date x : Int) (h : sameLocalDay tza x date)
    (hx : (x + tza) % msPerDay ≠ msPerDay - 1) :
    (queryWindow tza date).1 ≤ x ∧ x < (queryWindow tza date).2 := by
  rw [queryWindow_eq]
  simp only [localMidnight, msPerDay]
  simp only [sameLocalDay, Day, LocalTime, msPerDay] at h
  simp only [msPerDay] at hx
  omega

theorem localMidnight_of_sameLocalDay (tza x y : Int) (h : sameLocalDay tza x y) :
    localMidnight tza x = localMidnight tza y := by
  simp only [sameLocalDay, Day, LocalTime, msPerDay] at h
  simp only [localMidnight, msPerDay]
  omega

theorem atTime_bounds (tza date : Int) (time : String) (cs : Int)
    (ht : readsAsTimeOfDay time) (h : atTime tza date time = some cs) :
    localMidnight tza date ≤ cs ∧ cs < localMidnight tza date + msPerDay := by
  obtain ⟨hh, mm, h1, h2, h3, h4, h5, h6⟩ := ht
  simp only [atTime, h1, h2, Option.some.injEq] at h
  subst h
  simp only [msPerHour, msPerMinute, msPerDay]
  omega

/-! ## `checkConflict` -/

theorem overlaps_iff (tza : Int) (cstart cend : JSDate) (a : Appointment) :
    overlaps tza cstart cend a = true ↔
      ∃ cs ce s : Int, cstart = some cs ∧ cend = some ce ∧ atTime tza a.date a.time = some s ∧
        cs < s + a.duration * msPerMinute ∧ ce > s ∧
        isTimeValue s ∧ isTimeValue (s + a.duration * msPerMinute) := by
  unfold overlaps
  simp only []
  rw [startOf_eq_clip]
  cases hs : atTime tza a.date a.time with
  | none => cases cstart <;> cases cend <;> simp [endOf_none, dateLt, dateGt]
  | some s =>
    simp only [Option.bind]
    by_cases hr : isTimeValue s
    · rw [TimeClip_of_isTimeValue s hr, endOf_some]
      by_cases hre : isTimeValue (s + a.duration * msPerMinute)
      · rw [TimeClip_of_isTimeValue _ hre]
        cases cstart <;> cases cend <;> simp [dateLt, dateGt, hr, hre]
      · rw [(TimeClip_eq_none_iff _).2 hre]
        cases cstart <;> cases cend <;> simp [dateLt, dateGt, hr, hre]
    · rw [(TimeClip_eq_none_iff _).2 hr, endOf_none]
      cases cstart <;> cases cend <;> simp [dateLt, dateGt, hr]

theorem mem_conflictingAppointments (tza : Int) (store : List Appointment)
    (doctorId : ObjectId) (date : Int) (excludeId : Option ObjectId) (a : Appointment) :
    a ∈ conflictingAppointments tza store doctorId date excludeId ↔
      a ∈ store ∧ a.doctorId = doctorId ∧
        (queryWindow tza date).1 ≤ a.date ∧ a.date < (queryWindow tza date).2 ∧
        isActive a = true ∧ (∀ id, excludeId = some id → a._id ≠ id) := by
  unfold conflictingAppointments isActive
  cases excludeId <;> simp [List.mem_filter, and_assoc]

/-- The result of `checkConflict` in closed form: some fetched appointment overlaps the
candidate, and the two starts and the two ends are time values. -/
theorem checkConflict_eq_true_iff (tza : Int) (store : List Appointment) (doctorId : ObjectId)
    (date : Int) (time : String) (duration : Int) (excludeId : Option ObjectId) :
    checkConflict tza store doctorId date time duration excludeId = true ↔
      ∃ a ∈ conflictingAppointments tza store doctorId date excludeId, ∃ cs s : Int,
        atTime tza date time = some cs ∧ atTime tza a.date a.time = some s ∧
        cs < s + a.duration * msPerMinute ∧ cs + duration * msPerMinute > s ∧
        (isTimeValue cs ∧ isTimeValue (cs + duration * msPerMinute)) ∧
        (isTimeValue s ∧ isTimeValue (s + a.duration * msPerMinute)) := by
  unfold checkConflict
  simp only [List.any_eq_true, overlaps_iff]
  constructor
  · rintro ⟨a, ha, cs, ce, s, h1, h2, h3, h4, h5, h6, h7⟩
    obtain ⟨h1a, h1r⟩ := (startOf_eq_some_iff tza date time cs).1 h1
    rw [h1] at h2
    obtain ⟨h2a, h2r⟩ := (endOf_eq_some_iff tza cs duration ce).1 h2
    subst h2a
    exact ⟨a, ha, cs, s, h1a, h3, h4, h5, ⟨h1r, h2r⟩, h6, h7⟩
  · rintro ⟨a, ha, cs, s, h1, h3, h4, h5, ⟨h1r, h2r⟩, h6, h7⟩
    have hst := startOf_of_atTime tza date time cs h1 h1r
    refine ⟨a, ha, cs, cs + duration * msPerMinute, s, hst, ?_, h3, h4, h5, h6, h7⟩
    rw [hst]
    exact (endOf_eq_some_iff tza cs duration _).2 ⟨rfl, h2r⟩

/-- When `checkConflict` returns true, some fetched appointment overlaps the candidate. -/
theorem checkConflict_true_overlap (tza : Int) (store : List Appointment)
    (doctorId : ObjectId) (date : Int) (time : String) (duration : Int)
    (excludeId : Option ObjectId)
    (h : checkConflict tza store doctorId date time duration excludeId = true) :
    ∃ a ∈ conflictingAppointments tza store doctorId date excludeId, ∃ cs s : Int,
      atTime tza date time = some cs ∧ atTime tza a.date a.time = some s ∧
      cs < s + a.duration * msPerMinute ∧ cs + duration * msPerMinute > s := by
  obtain ⟨a, ha, cs, s, h1, h2, h3, h4, -, -⟩ := (checkConflict_eq_true_iff _ _ _ _ _ _ _).1 h
  exact ⟨a, ha, cs, s, h1, h2, h3, h4⟩

theorem checkConflict_touching (tza : Int) (E : Appointment) (date : Int) (time : String)
    (duration : Int) (excludeId : Option ObjectId)
    (h : endOf tza (startOf tza date time) duration = startOf tza E.date E.time ∨
      startOf tza date time = endOf tza (startOf tza E.date E.time) E.duration) :
    checkConflict tza [E] E.doctorId date time duration excludeId = false := by
  rw [Bool.eq_false_iff]
  intro hc
  rw [checkConflict_eq_true_iff] at hc
  obtain ⟨a, ha, cs, s, h1, h2, h3, h4, ⟨r1, r2⟩, r3, r4⟩ := hc
  have haE : a = E := by
    have := (mem_conflictingAppointments tza [E] E.doctorId date excludeId a).1 ha
    simpa using this.1
  subst haE
  rw [startOf_of_atTime tza _ _ cs h1 r1, startOf_of_atTime tza _ _ s h2 r3, endOf_some,
    endOf_some, TimeClip_of_isTimeValue _ r2, TimeClip_of_isTimeValue _ r4] at h
  simp only [Option.some.injEq] at h
  omega

theorem parts_1000 : hoursOf "10:00" = some 10 ∧ minutesOf "10:00" = some 0 := by decide
theorem parts_1030 : hoursOf "10:30" = some 10 ∧ minutesOf "10:30" = some 30 := by decide
theorem parts_1029 : hoursOf "10:29" = some 10 ∧ minutesOf "10:29" = some 29 := by decide
theorem parts_1400 : hoursOf "14:00" = some 14 ∧ minutesOf "14:00" = some 0 := by decide
theorem parts_1415 : hoursOf "14:15" = some 14 ∧ minutesOf "14:15" = some 15 := by decide
theorem parts_1500 : hoursOf "15:00" = some 15 ∧ minutesOf "15:00" = some 0 := by decide

theorem back_to_back (tza : Int) (E : Appointment) (date : Int)
    (ht : E.time = "10:00") (hd : E.duration = 30) (ha : isActive E = true)
    (hday : sameLocalDay tza E.date date) (hms : (E.date + tza) % msPerDay ≠ msPerDay - 1) :
    checkConflict tza [E] E.doctorId date "10:30" 30 none = false ∧
    (clearOfLimits date → checkConflict tza [E] E.doctorId date "10:29" 30 none = true) := by
  have hmid := localMidnight_of_sameLocalDay tza E.date date hday
  have hE : atTime tza E.date E.time = some (localMidnight tza date + 10 * msPerHour) := by
    simp [atTime, ht, parts_1000.1, parts_1000.2, hmid]
  constructor
  · rw [Bool.eq_false_iff]
    intro hc
    obtain ⟨a, ha', cs, s, h1, h2, h3, h4⟩ := checkConflict_true_overlap _ _ _ _ _ _ _ hc
    have haE : a = E := by
      have := (mem_conflictingAppointments tza [E] E.doctorId date none a).1 ha'
      simpa using this.1
    subst haE
    rw [hE] at h2
    simp only [atTime, parts_1030.1, parts_1030.2, Option.some.injEq] at h1 h2
    simp only [hd, msPerHour, msPerMinute] at h1 h2 h3
    omega
  · intro hclear
    have hb := localMidnight_bounds tza date
    simp only [clearOfLimits, maxTimeValue, msPerDay] at hclear
    simp only [msPerDay] at hb
    rw [checkConflict_eq_true_iff]
    refine ⟨E, ?_, localMidnight tza date + 10 * msPerHour + 29 * msPerMinute,
      localMidnight tza date + 10 * msPerHour, ?_, hE, ?_, ?_, ⟨?_, ?_⟩, ?_, ?_⟩
    · rw [mem_conflictingAppointments]
      have hw := window_of_sameLocalDay tza date E.date hday hms
      exact ⟨by simp, rfl, hw.1, hw.2, ha, by simp⟩
    · simp [atTime, parts_1029.1, parts_1029.2]
    · simp only [hd, msPerMinute]; omega
    · simp only [msPerMinute]; omega
    all_goals simp only [isTimeValue, maxTimeValue, msPerHour, msPerMinute, hd]; omega

theorem conflictingAppointments_filter_isActive (tza : Int) (store : List Appointment)
    (doctorId : ObjectId) (date : Int) (excludeId : Option ObjectId) :
    conflictingAppointments tza (store.filter isActive) doctorId date excludeId
      = conflictingAppointments tza store doctorId date excludeId := by
  unfold conflictingAppointments
  rw [List.filter_filter]
  apply List.filter_congr
  intro a _
  cases h : isActive a
  · unfold isActive at h
    simp only [Bool.not_eq_false', Bool.not_eq_eq_eq_not, Bool.not_false] at h
    simp [h]
  · simp

theorem conflictingAppointments_exclude (tza : Int) (store : List Appointment)
    (doctorId : ObjectId) (date : Int) (id : ObjectId) :
    conflictingAppointments tza store doctorId date (some id)
      = conflictingAppointments tza (store.filter fun a => a._id != id) doctorId date none := by
  unfold conflictingAppointments
  rw [List.filter_filter]
  apply List.filter_congr
  intro a _
  by_cases hid : a._id = id <;> simp [hid]

/-- Symmetry of conflict detection between two active appointments of one doctor on one
local day, provided neither stored date is the day's last millisecond. -/
theorem checkConflict_symm (tza : Int) (A B : Appointment) (hdoc : A.doctorId = B.doctorId)
    (hA : isActive A = true) (hB : isActive B = true)
    (hday : sameLocalDay tza A.date B.date)
    (hAms : (A.date + tza) % msPerDay ≠ msPerDay - 1)
    (hBms : (B.date + tza) % msPerDay ≠ msPerDay - 1) :
    checkConflict tza [B] A.doctorId A.date A.time A.duration none
      = checkConflict tza [A] B.doctorId B.date B.time B.duration none := by
  rw [Bool.eq_iff_iff, checkConflict_eq_true_iff, checkConflict_eq_true_iff]
  have hwA := window_of_sameLocalDay tza B.date A.date hday hAms
  have hwB := window_of_sameLocalDay tza A.date B.date hday.symm hBms
  constructor
  · rintro ⟨a, ha, cs, s, h1, h2, h3, h4, r1, r2⟩
    have haB : a = B := by simpa using ((mem_conflictingAppointments _ _ _ _ _ _).1 ha).1
    subst haB
    refine ⟨A, ?_, s, cs, h2, h1, by omega, by omega, r2, r1⟩
    rw [mem_conflictingAppointments]
    exact ⟨by simp, hdoc, hwA.1, hwA.2, hA, by simp⟩
  · rintro ⟨a, ha, cs, s, h1, h2, h3, h4, r1, r2⟩
    have haA : a = A := by simpa using ((mem_conflictingAppointments _ _ _ _ _ _).1 ha).1
    subst haA
    refine ⟨B, ?_, s, cs, h2, h1, by omega, by omega, r2, r1⟩
    rw [mem_conflictingAppointments]
    exact ⟨by simp, hdoc.symm, hwB.1, hwB.2, hB, by simp⟩

/-! ## Strings and `isAvailable` -/

theorem toNat_ofNat_of_lt (n : Nat) (h : n < 0xd800) : (Char.ofNat n).toNat = n := by
  have hv : n.isValidChar := Or.inl h
  simp [Char.ofNat, hv, Char.ofNatAux, Char.toNat, UInt32.toNat]

theorem toLowerChar_eq_letter (c : Char) (n : Nat) (h1 : 97 ≤ n) (h2 : n ≤ 122)
    (h : toLowerChar c = Char.ofNat n) : c = Char.ofNat n ∨ c = Char.ofNat (n - 32) := by
  unfold toLowerChar at h
  split at h
  · right
    have h3 := congrArg Char.toNat h
    rw [toNat_ofNat_of_lt _ (by omega), toNat_ofNat_of_lt _ (by omega)] at h3
    have h4 : c.toNat = n - 32 := by omega
    rw [← h4, Char.ofNat_toNat]
  · left
    exact h

theorem trimEnd_cons (c : Char) (r : List Char) (hc : isStrWhiteSpaceChar c = false) :
    ∃ r', trimEnd (c :: r) = c :: r' := by
  cases h : trimEnd r with
  | nil => exact ⟨[], by simp [trimEnd, h, hc]⟩
  | cons x xs => exact ⟨x :: xs, by simp [trimEnd, h]⟩

/-- Text that starts with a letter of a day name's initial is no numeric literal. -/
theorem stringToNumber_initial (c : Char) (r : List Char)
    (hc : c ∈ ['m', 'M', 't', 'T', 'w', 'W', 'f', 'F', 's', 'S']) :
    stringToNumber (String.mk (c :: r)) = NumberValue.nan := by
  have hws : isStrWhiteSpaceChar c = false := by
    simp only [List.mem_cons, List.mem_singleton, List.not_mem_nil, or_false] at hc
    rcases hc with h | h | h | h | h | h | h | h | h | h <;> subst h <;> decide
  obtain ⟨r', hr'⟩ := trimEnd_cons c r hws
  unfold stringToNumber
  simp only [List.dropWhile_cons, hws, Bool.false_eq_true, if_false, hr']
  simp only [List.mem_cons, List.mem_singleton, List.not_mem_nil, or_false] at hc
  rcases hc with h | h | h | h | h | h | h | h | h | h <;> subst h <;>
    simp [parseNonDecimal, parseUnsignedDecimal, isDecimalDigit]

theorem stringToNumber_of_dayName (s : String) (d : WeekDay) (h : toLowerCase s = d.name) :
    stringToNumber s = NumberValue.nan := by
  obtain ⟨cs⟩ := s
  have hdata : cs.map toLowerChar = d.name.data := by
    have := congrArg String.data h
    simpa [toLowerCase] using this
  cases cs with
  | nil => cases d <;> simp [WeekDay.name] at hdata
  | cons c r =>
    apply stringToNumber_initial
    cases d <;> simp only [WeekDay.name, List.map_cons, List.cons.injEq] at hdata
    · rcases toLowerChar_eq_letter c 109 (by omega) (by omega) hdata.1 with h | h <;> simp [h]
    · rcases toLowerChar_eq_letter c 116 (by omega) (by omega) hdata.1 with h | h <;> simp [h]
    · rcases toLowerChar_eq_letter c 119 (by omega) (by omega) hdata.1 with h | h <;> simp [h]
    · rcases toLowerChar_eq_letter c 116 (by omega) (by omega) hdata.1 with h | h <;> simp [h]
    · rcases toLowerChar_eq_letter c 102 (by omega) (by omega) hdata.1 with h | h <;> simp [h]
    · rcases toLowerChar_eq_letter c 115 (by omega) (by omega) hdata.1 with h | h <;> simp [h]
    · rcases toLowerChar_eq_letter c 115 (by omega) (by omega) hdata.1 with h | h <;> simp [h]

theorem WeekDay.name_injective (a b : WeekDay) (h : a.name = b.name) : a = b := by
  cases a <;> cases b <;> first | rfl | (exact absurd h (by decide))

theorem dayMatch_iff (x : ScheduleEntry) (d : WeekDay) :
    (x.day.map WeekDay.name == some d.name) = true ↔ x.day = some d := by
  cases hx : x.day with
  | none => simp
  | some y =>
    simp only [Option.map_some', beq_iff_eq, Option.some.injEq]
    exact ⟨fun h => WeekDay.name_injective _ _ h, fun h => by rw [h]⟩

theorem find_of_firstEntryFor (schedule : List ScheduleEntry) (d : WeekDay) (e : ScheduleEntry)
    (h : firstEntryFor schedule d e) :
    schedule.find? (fun s => s.day.map WeekDay.name == some d.name) = some e := by
  obtain ⟨pre, post, rfl, hpre, he⟩ := h
  induction pre with
  | nil => simp [List.find?, (dayMatch_iff e d).2 he]
  | cons x xs ih =>
    have hx : ¬ (x.day.map WeekDay.name == some d.name) = true := by
      rw [dayMatch_iff]; exact hpre x (by simp)
    simp only [List.cons_append, List.find?_cons, hx]
    exact ih (fun y hy => hpre y (by simp [hy]))

theorem find_of_no_entry (schedule : List ScheduleEntry) (d : WeekDay)
    (h : ∀ x ∈ schedule, x.day ≠ some d) :
    schedule.find? (fun s => s.day.map WeekDay.name == some d.name) = none := by
  rw [List.find?_eq_none]
  intro x hx
  rw [dayMatch_iff]
  exact h x hx

theorem leave_check_false (leaveDates : List LeaveRange) (date : String) (d : WeekDay)
    (h : toLowerCase date = d.name) :
    (leaveDates.any fun leave =>
      strGeDate date leave.startDate && strLeDate date leave.endDate) = false := by
  rw [List.any_eq_false]
  intro leave _
  simp [strGeDate, stringToNumber_of_dayName date d h]

theorem isAvailable_of_firstEntry (self : Doctor) (date : String) (d : WeekDay)
    (e : ScheduleEntry) (time : String) (hd : toLowerCase date = d.name)
    (he : firstEntryFor self.availability.schedule d e) :
    isAvailable self (DateArg.str date) time =
      Except.ok (e.isAvailable && (strGe time e.startTime && strLe time e.endTime)) := by
  unfold isAvailable
  simp only [hd, find_of_firstEntryFor _ d e he, leave_check_false _ date d hd]
  cases e.isAvailable <;> simp

theorem isAvailable_of_no_entry (self : Doctor) (date : String) (d : WeekDay) (time : String)
    (hd : toLowerCase date = d.name) (h : ∀ x ∈ self.availability.schedule, x.day ≠ some d) :
    isAvailable self (DateArg.str date) time = Except.ok false := by
  unfold isAvailable
  simp only [hd, find_of_no_entry _ d h]

theorem charCodeUnits_digitChar (d : Nat) (h : d < 10) : charCodeUnits (digitChar d) = [48 + d] := by
  unfold charCodeUnits digitChar
  rw [toNat_ofNat_of_lt _ (by omega)]
  simp
  omega

theorem codeUnits_hhmm (h m : Nat) (hh : h < 100) (hm : m < 100) :
    codeUnits (hhmm h m) = [48 + h / 10, 48 + h % 10, 58, 48 + m / 10, 48 + m % 10] := by
  have e1 := charCodeUnits_digitChar (h / 10) (by omega)
  have e2 := charCodeUnits_digitChar (h % 10) (by omega)
  have e3 := charCodeUnits_digitChar (m / 10) (by omega)
  have e4 := charCodeUnits_digitChar (m % 10) (by omega)
  have e5 : charCodeUnits ':' = [58] := by decide
  simp [codeUnits, hhmm, List.flatMap, e1, e2, e3, e4, e5]

/-- On zero-padded `HH:MM` texts the relational comparison of strings is the comparison
of minutes of the day. -/
theorem strLt_hhmm (h1 m1 h2 m2 : Nat) (hh1 : h1 < 100) (hm1 : m1 < 60) (hh2 : h2 < 100)
    (hm2 : m2 < 60) :
    strLt (hhmm h1 m1) (hhmm h2 m2) = decide (60 * h1 + m1 < 60 * h2 + m2) := by
  unfold strLt
  rw [codeUnits_hhmm h1 m1 hh1 (by omega), codeUnits_hhmm h2 m2 hh2 (by omega)]
  simp only [lexLt]
  rw [Bool.eq_iff_iff]
  simp only [decide_eq_true_eq]
  split_ifs <;> simp <;> omega

/-! ## Claims on `checkConflict` -/

/-- Claim C1 fails beyond the range of time values: with the 14:00 appointment fetched, a
12:00 candidate of 144000000000 minutes satisfies `candidateStart < end a` and
`candidateEnd > start a` as numbers, but its end is an invalid date and `checkConflict`
returns false; with 500 minutes it returns true. -/
theorem checkConflict_false_on_invalid_end :
    scenarioActive 10 ∈ conflictingAppointments 0 (scenarioStore 10) 10 scenarioDate none ∧
    atTime 0 scenarioDate "12:00" = some (scenarioDate + 12 * msPerHour) ∧
    atTime 0 (scenarioActive 10).date (scenarioActive 10).time
      = some (scenarioDate + 14 * msPerHour) ∧
    scenarioDate + 12 * msPerHour
      < scenarioDate + 14 * msPerHour + (scenarioActive 10).duration * msPerMinute ∧
    scenarioDate + 12 * msPerHour + 144000000000 * msPerMinute
      > scenarioDate + 14 * msPerHour ∧
    endOf 0 (startOf 0 scenarioDate "12:00") 144000000000 = none ∧
    checkConflict 0 (scenarioStore 10) 10 scenarioDate "12:00" 144000000000 none = false ∧
    checkConflict 0 (scenarioStore 10) 10 scenarioDate "12:00" 500 none = true := by
  decide

/-- Claim C1, as the code has it. For every candidate and every store, `checkConflict`
returns true exactly when some appointment `a` of the list returned by the same-day query
satisfies `candidateStart < end a` and `candidateEnd > start a` and the two starts and
the two ends are time values, where a start is the date at the hours and minutes of the
time string and an end is the start plus the duration in minutes; when the returned list
is empty it returns false. For a date clear of the limits, times of day and durations
from 0 to 1440 minutes the starts and ends are time values, and the result is true exactly
when some returned appointment satisfies the two inequalities. -/
theorem checkConflict_iff_overlap_of_time_values (tza : Int) (store : List Appointment)
    (doctorId : ObjectId) (date : Int) (time : String) (duration : Int)
    (excludeId : Option ObjectId) :
    (checkConflict tza store doctorId date time duration excludeId = true ↔
      ∃ a ∈ conflictingAppointments tza store doctorId date excludeId, ∃ cs s : Int,
        atTime tza date time = some cs ∧ atTime tza a.date a.time = some s ∧
        cs < s + a.duration * msPerMinute ∧ cs + duration * msPerMinute > s ∧
        (isTimeValue cs ∧ isTimeValue (cs + duration * msPerMinute)) ∧
        (isTimeValue s ∧ isTimeValue (s + a.duration * msPerMinute))) ∧
    (conflictingAppointments tza store doctorId date excludeId = [] →
      checkConflict tza store doctorId date time duration excludeId = false) ∧
    (clearOfLimits date → readsAsTimeOfDay time → 0 ≤ duration → duration ≤ 1440 →
      (∀ a ∈ conflictingAppointments tza store doctorId date excludeId,
        readsAsTimeOfDay a.time ∧ 0 ≤ a.duration ∧ a.duration ≤ 1440) →
      (checkConflict tza store doctorId date time duration excludeId = true ↔
        ∃ a ∈ conflictingAppointments tza store doctorId date excludeId, ∃ cs s : Int,
          atTime tza date time = some cs ∧ atTime tza a.date a.time = some s ∧
          cs < s + a.duration * msPerMinute ∧ cs + duration * msPerMinute > s)) := by
  refine ⟨checkConflict_eq_true_iff tza store doctorId date time duration excludeId, ?_, ?_⟩
  · intro h
    simp [checkConflict, h]
  · intro hclear htime hd0 hd1 hall
    constructor
    · exact checkConflict_true_overlap _ _ _ _ _ _ _
    · rintro ⟨a, ha, cs, s, h1, h2, h3, h4⟩
      rw [checkConflict_eq_true_iff]
      refine ⟨a, ha, cs, s, h1, h2, h3, h4, ?_⟩
      obtain ⟨hat, ha0, ha1⟩ := hall a ha
      have hmem := (mem_conflictingAppointments _ _ _ _ _ _).1 ha
      have hday := sameLocalDay_of_window tza date a.date hmem.2.2.1 hmem.2.2.2.1
      have hmid := localMidnight_of_sameLocalDay tza a.date date hday
      have hb := localMidnight_bounds tza date
      have hcs := atTime_bounds tza date time cs htime h1
      have hs := atTime_bounds tza a.date a.time s hat h2
      rw [hmid] at hs
      simp only [clearOfLimits, maxTimeValue, msPerDay] at hclear
      simp only [msPerDay] at hb hcs hs
      simp only [isTimeValue, maxTimeValue, msPerMinute]
      omega

/-- Instance of claim C1, as the code has it, on the store of the 2024-06-10 scenario: the
14:15 candidate overlaps the fetched 14:00 appointment. -/
theorem checkConflict_iff_overlap_of_time_values_witness :
    checkConflict 0 (scenarioStore 10) 10 scenarioDate "14:15" 30 none = true ∧
    conflictingAppointments 0 [] 10 scenarioDate none = [] ∧
    checkConflict 0 [] 10 scenarioDate "14:15" 30 none = false :=
  ⟨((checkConflict_iff_overlap_of_time_values 0 (scenarioStore 10) 10 scenarioDate "14:15" 30
      none).2.2 (by decide) ⟨14, 15, by decide, by decide, by decide, by decide, by decide,
        by decide⟩ (by decide) (by decide) (by
        intro a ha
        have hmem := ((mem_conflictingAppointments _ _ _ _ _ _).1 ha).1
        simp only [scenarioStore, List.mem_cons, List.mem_singleton, List.not_mem_nil,
          or_false] at hmem
        rcases hmem with rfl | rfl
        · exact ⟨⟨14, 0, by decide, by decide, by decide, by decide, by decide, by decide⟩,
            by decide, by decide⟩
        · exact ⟨⟨15, 0, by decide, by decide, by decide, by decide, by decide, by decide⟩,
            by decide, by decide⟩)).2
      ⟨scenarioActive 10, by decide, scenarioDate + 14 * msPerHour + 15 * msPerMinute,
        scenarioDate + 14 * msPerHour, by decide, by decide, by decide, by decide⟩,
    rfl,
    (checkConflict_iff_overlap_of_time_values 0 [] 10 scenarioDate "14:15" 30 none).2.1 rfl⟩

/-- Claim C2. A candidate that ends exactly when the existing appointment `E` starts, or
starts exactly when `E` ends, does not conflict with `E`. With `E` active at 10:00 for 30
minutes, on the candidate's local day and not dated at that day's last millisecond, a
candidate at 10:30 for 30 minutes does not conflict and one at 10:29 for 30 minutes
does, the date being clear of the limits of time values. -/
theorem touching_intervals_do_not_conflict :
    (∀ (tza : Int) (E : Appointment) (date : Int) (time : String) (duration : Int)
        (excludeId : Option ObjectId),
      (endOf tza (startOf tza date time) duration = startOf tza E.date E.time ∨
        startOf tza date time = endOf tza (startOf tza E.date E.time) E.duration) →
      checkConflict tza [E] E.doctorId date time duration excludeId = false) ∧
    (∀ (tza : Int) (E : Appointment) (date : Int),
      E.time = "10:00" → E.duration = 30 → isActive E = true →
      sameLocalDay tza E.date date → (E.date + tza) % msPerDay ≠ msPerDay - 1 →
      checkConflict tza [E] E.doctorId date "10:30" 30 none = false ∧
      (clearOfLimits date → checkConflict tza [E] E.doctorId date "10:29" 30 none = true)) :=
  ⟨checkConflict_touching, back_to_back⟩

/-- Instance of claim C2: existing 10:00 for 30 minutes on 2024-06-10, candidates at
10:30 and at 10:29. -/
theorem touching_intervals_witness :
    startOf 0 scenarioDate "10:30"
      = endOf 0 (startOf 0 tenOClock.date tenOClock.time) tenOClock.duration ∧
    checkConflict 0 [tenOClock] tenOClock.doctorId scenarioDate "10:30" 30 none = false ∧
    checkConflict 0 [tenOClock] tenOClock.doctorId scenarioDate "10:29" 30 none = true :=
  ⟨by decide,
    touching_intervals_do_not_conflict.1 0 tenOClock scenarioDate "10:30" 30 none
      (Or.inr (by decide)),
    (touching_intervals_do_not_conflict.2 0 tenOClock scenarioDate rfl rfl (by decide)
      (by decide) (by decide)).2 (by decide)⟩

/-- Claim C3. The result of `checkConflict` is unchanged when every cancelled and no-show
appointment is removed from the store, and a candidate whose only overlapping
appointments of the doctor on the same local day are cancelled or no-show gets false. -/
theorem cancelled_noShow_ignored (tza : Int) (store : List Appointment) (doctorId : ObjectId)
    (date : Int) (time : String) (duration : Int) (excludeId : Option ObjectId) :
    checkConflict tza (store.filter isActive) doctorId date time duration excludeId
        = checkConflict tza store doctorId date time duration excludeId ∧
    ((∀ a ∈ store, a.doctorId = doctorId → sameLocalDay tza a.date date →
        (∃ cs s : Int, atTime tza date time = some cs ∧ atTime tza a.date a.time = some s ∧
          cs < s + a.duration * msPerMinute ∧ cs + duration * msPerMinute > s) →
        a.status = Status.cancelled ∨ a.status = Status.noShow) →
      checkConflict tza store doctorId date time duration excludeId = false) := by
  constructor
  · unfold checkConflict
    rw [conflictingAppointments_filter_isActive]
  · intro h
    rw [Bool.eq_false_iff]
    intro hc
    obtain ⟨a, ha, hov⟩ := checkConflict_true_overlap _ _ _ _ _ _ _ hc
    rw [mem_conflictingAppointments] at ha
    obtain ⟨hmem, hdoc, hw1, hw2, hact, _⟩ := ha
    have := h a hmem hdoc (sameLocalDay_of_window tza date a.date hw1 hw2) hov
    unfold isActive at hact
    rcases this with h1 | h1 <;> simp [h1] at hact

/-- Instance of claim C3: in the store of the 2024-06-10 scenario the only appointment
overlapping 15:00-15:30 is cancelled. -/
theorem cancelled_noShow_ignored_witness :
    checkConflict 0 (scenarioStore 10) 10 scenarioDate "15:00" 30 none = false :=
  (cancelled_noShow_ignored 0 (scenarioStore 10) 10 scenarioDate "15:00" 30 none).2 (by
    intro a ha _ _ hov
    obtain ⟨cs, s, h1, h2, h3, h4⟩ := hov
    simp only [scenarioStore, List.mem_cons, List.mem_singleton, List.not_mem_nil, or_false] at ha
    rcases ha with rfl | rfl
    · simp only [atTime, scenarioActive, parts_1500.1, parts_1500.2, parts_1400.1, parts_1400.2,
        Option.some.injEq] at h1 h2
      simp only [msPerHour, msPerMinute, scenarioActive] at h1 h2 h3 h4
      omega
    · exact Or.inl rfl)

/-- Claim C4. Called with a stored appointment's own doctor, date, time and duration and
with `excludeId` equal to its id, `checkConflict` returns false whenever no other active
appointment of that doctor on the same local day overlaps its interval; in general the
documents carrying the excluded id never contribute: the result is the one obtained on
the store without them. -/
theorem exclude_self (tza : Int) (store : List Appointment) (A : Appointment)
    (h : ∀ b ∈ store, b._id ≠ A._id → b.doctorId = A.doctorId → isActive b = true →
      sameLocalDay tza b.date A.date →
      ∀ cs s : Int, atTime tza A.date A.time = some cs → atTime tza b.date b.time = some s →
        ¬ (cs < s + b.duration * msPerMinute ∧ cs + A.duration * msPerMinute > s)) :
    checkConflict tza store A.doctorId A.date A.time A.duration (some A._id) = false ∧
    (∀ (doctorId : ObjectId) (date : Int) (time : String) (duration : Int) (id : ObjectId),
      checkConflict tza store doctorId date time duration (some id)
        = checkConflict tza (store.filter fun a => a._id != id) doctorId date time duration
            none) := by
  constructor
  · rw [Bool.eq_false_iff]
    intro hc
    obtain ⟨b, hb, cs, s, h1, h2, h3, h4⟩ := checkConflict_true_overlap _ _ _ _ _ _ _ hc
    rw [mem_conflictingAppointments] at hb
    obtain ⟨hmem, hdoc, hw1, hw2, hact, hid⟩ := hb
    exact h b hmem (hid _ rfl) hdoc hact (sameLocalDay_of_window tza A.date b.date hw1 hw2)
      cs s h1 h2 ⟨h3, h4⟩
  · intro doctorId date time duration id
    unfold checkConflict
    rw [conflictingAppointments_exclude]

/-- Instance of claim C4: the active appointment of the 2024-06-10 scenario rescheduled
onto its own slot; without the exclusion it conflicts with itself. -/
theorem exclude_self_witness :
    checkConflict 0 (scenarioStore 10) 10 scenarioDate "14:00" 30 none = true ∧
    checkConflict 0 (scenarioStore 10) (scenarioActive 10).doctorId (scenarioActive 10).date
      (scenarioActive 10).time (scenarioActive 10).duration (some (scenarioActive 10)._id)
      = false :=
  ⟨by decide,
    (exclude_self 0 (scenarioStore 10) (scenarioActive 10) (by
      intro b hb hid _ hact
      simp only [scenarioStore, List.mem_cons, List.mem_singleton, List.not_mem_nil,
        or_false] at hb
      rcases hb with rfl | rfl
      · exact absurd rfl hid
      · exact absurd hact (by decide))).1⟩

/-- Claim C5. With a store holding, for doctor `D` on 2024-06-10, an active appointment at
14:00 for 30 minutes and a cancelled one at 15:00 for 30 minutes, `checkConflict` for
14:15 and 30 minutes is true and for 15:00 and 30 minutes is false, in every time zone
whose offset is a whole number of seconds. -/
theorem scenario_2024_06_10 (tza : Int) (D : ObjectId) (h : tza % msPerSecond = 0) :
    checkConflict tza (scenarioStore D) D scenarioDate "14:15" 30 none = true ∧
    checkConflict tza (scenarioStore D) D scenarioDate "15:00" 30 none = false := by
  constructor
  · have hb := localMidnight_bounds tza scenarioDate
    simp only [msPerDay, scenarioDate] at hb
    rw [checkConflict_eq_true_iff]
    refine ⟨scenarioActive D, ?_,
      localMidnight tza scenarioDate + 14 * msPerHour + 15 * msPerMinute,
      localMidnight tza scenarioDate + 14 * msPerHour, ?_, ?_, ?_, ?_, ⟨?_, ?_⟩, ?_, ?_⟩
    · rw [mem_conflictingAppointments, queryWindow_eq]
      refine ⟨by simp [scenarioStore], rfl, ?_, ?_, by simp [isActive, scenarioActive], by simp⟩
      · simp only [localMidnight, msPerDay, scenarioDate, scenarioActive]; omega
      · simp only [localMidnight, msPerDay, scenarioDate, msPerSecond, scenarioActive] at h ⊢
        omega
    · simp [atTime, parts_1415.1, parts_1415.2]
    · simp [atTime, scenarioActive, parts_1400.1, parts_1400.2]
    · simp only [msPerMinute, scenarioActive]; omega
    · simp only [msPerMinute]; omega
    all_goals
      simp only [isTimeValue, maxTimeValue, msPerHour, msPerMinute, scenarioActive, scenarioDate]
      omega
  · rw [Bool.eq_false_iff]
    intro hc
    obtain ⟨a, ha, cs, s, h1, h2, h3, h4⟩ := checkConflict_true_overlap _ _ _ _ _ _ _ hc
    rw [mem_conflictingAppointments] at ha
    obtain ⟨hmem, -, -, -, hact, -⟩ := ha
    simp only [scenarioStore, List.mem_cons, List.mem_singleton, List.not_mem_nil, or_false] at hmem
    rcases hmem with rfl | rfl
    · simp only [atTime, scenarioActive, parts_1500.1, parts_1500.2, parts_1400.1, parts_1400.2,
        Option.some.injEq] at h1 h2
      simp only [msPerHour, msPerMinute, scenarioActive] at h1 h2 h3 h4
      omega
    · simp [isActive, scenarioCancelled] at hact

/-- Instance of claim C5 at UTC for doctor 10. -/
theorem scenario_2024_06_10_witness :
    (0 : Int) % msPerSecond = 0 ∧
    checkConflict 0 (scenarioStore 10) 10 scenarioDate "14:15" 30 none = true ∧
    checkConflict 0 (scenarioStore 10) 10 scenarioDate "15:00" 30 none = false :=
  ⟨by decide, scenario_2024_06_10 0 10 (by decide)⟩

/-- Claim C6, evaluated where it fails. Two active appointments of doctor 10 on
2024-06-10 (UTC), both at 10:00 for 30 minutes, one dated at the day's first millisecond
and one at its last (23:59:59.999): the query's upper bound is exclusive, so the first as
candidate does not see the second (false), while the second as candidate sees the first
(true). -/
theorem checkConflict_asymmetric_at_day_end :
    sameLocalDay 0 dayStartAppt.date dayEndAppt.date ∧
    isActive dayStartAppt = true ∧ isActive dayEndAppt = true ∧
    dayStartAppt.doctorId = dayEndAppt.doctorId ∧
    checkConflict 0 [dayEndAppt] dayStartAppt.doctorId dayStartAppt.date dayStartAppt.time
      dayStartAppt.duration none = false ∧
    checkConflict 0 [dayStartAppt] dayEndAppt.doctorId dayEndAppt.date dayEndAppt.time
      dayEndAppt.duration none = true := by
  decide

/-! ## Claims on `isAvailable` -/

/-- The leave ranges play no part in the result for a day-name argument: replacing
`leaveDates` by any other list leaves `isAvailable` unchanged. -/
theorem isAvailable_ignores_leaveDates (self : Doctor) (leaveDates : List LeaveRange)
    (date : String) (d : WeekDay) (time : String) (hd : toLowerCase date = d.name) :
    isAvailable
        { self with availability := { self.availability with leaveDates := leaveDates } }
        (DateArg.str date) time
      = isAvailable self (DateArg.str date) time := by
  unfold isAvailable
  simp only [leave_check_false _ date d hd]

/-- Claim C7, evaluated where it fails. The doctor has `isOnLeave` false and a leave range
from 2024-06-09 to 2024-06-11 covering Monday 2024-06-10; the Monday entry is available
09:00-17:00. Called as the route calls it, with the day name, `isAvailable` returns true
for 10:00: the day name compared with the range's dates is never inside the range. -/
theorem isAvailable_true_during_leave :
    leaveDoctor.availability.isOnLeave = false ∧
    (∃ leave ∈ leaveDoctor.availability.leaveDates, ∃ s e : Int,
      leave.startDate = some s ∧ leave.endDate = some e ∧ s ≤ scenarioDate ∧ scenarioDate ≤ e) ∧
    isAvailable leaveDoctor (DateArg.str "monday") "10:00" = Except.ok true := by
  refine ⟨rfl, ⟨_, List.mem_singleton.2 rfl, 1717891200000, 1718064000000, rfl, rfl, ?_, ?_⟩, ?_⟩
  · decide
  · decide
  · decide

/-- Claim C8 fails: a doctor whose `isOnLeave` is true, with the Monday entry available
09:00-17:00, is reported available on Monday at 10:00. -/
theorem isAvailable_true_with_isOnLeave :
    flaggedDoctor.availability.isOnLeave = true ∧
    isAvailable flaggedDoctor (DateArg.str "monday") "10:00" = Except.ok true := by
  decide

/-- Claim C8 as amended. `isAvailable` does not consult `availability.isOnLeave`: for
every doctor, date argument and time, the result is the same whatever the value of the
flag. -/
theorem isAvailable_ignores_isOnLeave (self : Doctor) (flag : Bool) (date : DateArg)
    (time : String) :
    isAvailable { self with availability := { self.availability with isOnLeave := flag } }
        date time
      = isAvailable self date time := by
  rfl

/-- Claim C9. When the first schedule entry for the day is available from 09:00 to 17:00,
`isAvailable` returns true for 09:00 and 17:00 and false for 08:59 and 17:01; in general,
for zero-padded `HH:MM` start, end and time it returns true exactly when the time lies
between start and end as minutes of the day, both bounds included. -/
theorem isAvailable_hours_inclusive (self : Doctor) (date : String) (d : WeekDay)
    (e : ScheduleEntry) (hd : toLowerCase date = d.name)
    (he : firstEntryFor self.availability.schedule d e) (hav : e.isAvailable = true) :
    (e.startTime = some "09:00" → e.endTime = some "17:00" →
      isAvailable self (DateArg.str date) "09:00" = Except.ok true ∧
      isAvailable self (DateArg.str date) "17:00" = Except.ok true ∧
      isAvailable self (DateArg.str date) "08:59" = Except.ok false ∧
      isAvailable self (DateArg.str date) "17:01" = Except.ok false) ∧
    (∀ sh sm eh em th tm : Nat, sh < 100 → sm < 60 → eh < 100 → em < 60 → th < 100 → tm < 60 →
      e.startTime = some (hhmm sh sm) → e.endTime = some (hhmm eh em) →
      isAvailable self (DateArg.str date) (hhmm th tm)
        = Except.ok (decide (60 * sh + sm ≤ 60 * th + tm ∧ 60 * th + tm ≤ 60 * eh + em))) := by
  constructor
  · intro hs hE
    simp only [isAvailable_of_firstEntry self date d e _ hd he, hav, hs, hE]
    decide
  · intro sh sm eh em th tm h1 h2 h3 h4 h5 h6 hs hE
    rw [isAvailable_of_firstEntry self date d e _ hd he, hav, hs, hE]
    simp only [strGe, strLe, strLt_hhmm th tm sh sm h5 h6 h1 h2,
      strLt_hhmm eh em th tm h3 h4 h5 h6, Bool.true_and]
    congr 1
    rw [Bool.eq_iff_iff]
    simp only [Bool.and_eq_true, Bool.not_eq_true', decide_eq_false_iff_not, decide_eq_true_eq]
    omega

/-- Instance of claim C9: the doctor of the leave scenario on a Monday, at 12:30 and at
17:01. -/
theorem isAvailable_hours_inclusive_witness :
    toLowerCase "Monday" = WeekDay.monday.name ∧
    isAvailable leaveDoctor (DateArg.str "Monday") "17:00" = Except.ok true ∧
    isAvailable leaveDoctor (DateArg.str "Monday") "17:01" = Except.ok false ∧
    isAvailable leaveDoctor (DateArg.str "Monday") (hhmm 12 30) = Except.ok true :=
  have h := isAvailable_hours_inclusive leaveDoctor "Monday" WeekDay.monday mondayEntry
    (by decide) ⟨[], [saturdayOff], rfl, by simp, rfl⟩ rfl
  ⟨by decide, (h.1 rfl rfl).2.1, (h.1 rfl rfl).2.2.2,
    h.2 9 0 17 0 12 30 (by decide) (by decide) (by decide) (by decide) (by decide) (by decide)
      rfl rfl⟩

/-- Claim C10. For every doctor and every day of the week, if the schedule has no entry
for that day, or its first entry for that day has `isAvailable` false, then `isAvailable`
returns false for every time, whatever `leaveDates` and `isOnLeave` hold. -/
theorem isAvailable_false_on_day_off (self : Doctor) (date : String) (d : WeekDay)
    (time : String) (hd : toLowerCase date = d.name)
    (h : (∀ x ∈ self.availability.schedule, x.day ≠ some d) ∨
      ∃ e, firstEntryFor self.availability.schedule d e ∧ e.isAvailable = false) :
    isAvailable self (DateArg.str date) time = Except.ok false := by
  rcases h with h | ⟨e, he, hav⟩
  · exact isAvailable_of_no_entry self date d time hd h
  · rw [isAvailable_of_firstEntry self date d e time hd he, hav]
    rfl

/-- Instance of claim C10: the Saturday entry is switched off, and there is no entry for
Sunday. -/
theorem isAvailable_false_on_day_off_witness :
    isAvailable leaveDoctor (DateArg.str "saturday") "10:00" = Except.ok false ∧
    isAvailable leaveDoctor (DateArg.str "sunday") "10:00" = Except.ok false :=
  ⟨isAvailable_false_on_day_off leaveDoctor "saturday" WeekDay.saturday "10:00" (by decide)
      (Or.inr ⟨saturdayOff, ⟨[mondayEntry], [], rfl, by simp [mondayEntry], rfl⟩, rfl⟩),
    isAvailable_false_on_day_off leaveDoctor "sunday" WeekDay.sunday "10:00" (by decide)
      (Or.inl (by simp [leaveDoctor, mondayEntry, saturdayOff]))⟩

/-! ## Claims on the failure behaviour of `isAvailable` and on the schedule lookup -/

/-- Claim C11 fails: called with a `Date` value, `isAvailable` throws a TypeError at
`date.toLowerCase()`. -/
theorem isAvailable_throws_on_Date :
    isAvailable leaveDoctor (DateArg.date (some scenarioDate)) "10:00"
      = Except.error (JSError.typeError "date.toLowerCase is not a function") := by
  decide

/-- Claim C11 as amended. For a string date argument `isAvailable` never throws: for every
doctor document, every string date and every time it returns a boolean; it returns false
when the schedule is empty, and when the first entry for the day lacks `startTime` or
`endTime`. -/
theorem isAvailable_total_on_strings (self : Doctor) (date time : String) :
    (∃ b, isAvailable self (DateArg.str date) time = Except.ok b) ∧
    (self.availability.schedule = [] →
      isAvailable self (DateArg.str date) time = Except.ok false) ∧
    (∀ d e, toLowerCase date = d.name → firstEntryFor self.availability.schedule d e →
      e.startTime = none ∨ e.endTime = none →
      isAvailable self (DateArg.str date) time = Except.ok false) := by
  refine ⟨?_, ?_, ?_⟩
  · unfold isAvailable
    simp only
    split
    · exact ⟨false, rfl⟩
    · split
      · exact ⟨false, rfl⟩
      · split
        · exact ⟨false, rfl⟩
        · exact ⟨_, rfl⟩
  · intro h
    simp [isAvailable, h]
  · intro d e hd he hmiss
    rw [isAvailable_of_firstEntry self date d e time hd he]
    rcases hmiss with h | h <;> simp [h, strGe, strLe]

/-- Instance of claim C11 as amended: a doctor without schedule, and one whose Monday
entry has no `endTime`. -/
theorem isAvailable_total_on_strings_witness :
    isAvailable (withSchedule leaveDoctor []) (DateArg.str "monday") "10:00" = Except.ok false ∧
    isAvailable
      (withSchedule leaveDoctor [{ mondayEntry with endTime := none }])
      (DateArg.str "monday") "10:00" = Except.ok false :=
  ⟨(isAvailable_total_on_strings (withSchedule leaveDoctor []) "monday" "10:00").2.1 rfl,
    (isAvailable_total_on_strings
      (withSchedule leaveDoctor [{ mondayEntry with endTime := none }]) "monday" "10:00").2.2
      WeekDay.monday { mondayEntry with endTime := none } (by decide)
      ⟨[], [], rfl, by simp, rfl⟩ (Or.inr rfl)⟩

/-- Claim C20. When the schedule holds several entries for a day of the week,
`isAvailable` decides on the first of them: whatever follows that entry in the list,
changed, added or removed, the result for that day is the same. -/
theorem isAvailable_first_entry_only (self : Doctor) (date : String) (d : WeekDay)
    (time : String) (pre : List ScheduleEntry) (e : ScheduleEntry)
    (post post' : List ScheduleEntry) (hd : toLowerCase date = d.name)
    (hpre : ∀ x ∈ pre, x.day ≠ some d) (he : e.day = some d) :
    isAvailable (withSchedule self (pre ++ e :: post)) (DateArg.str date) time
      = isAvailable (withSchedule self (pre ++ e :: post')) (DateArg.str date) time := by
  rw [isAvailable_of_firstEntry (withSchedule self (pre ++ e :: post)) date d e time hd
      ⟨pre, post, rfl, hpre, he⟩,
    isAvailable_of_firstEntry (withSchedule self (pre ++ e :: post')) date d e time hd
      ⟨pre, post', rfl, hpre, he⟩]

/-- Instance of claim C20: a second Monday entry, switched off, after the first does not
change the answer for Monday 10:00. -/
theorem isAvailable_first_entry_only_witness :
    isAvailable (withSchedule leaveDoctor [saturdayOff, mondayEntry, mondayLater])
        (DateArg.str "monday") "10:00"
      = isAvailable (withSchedule leaveDoctor [saturdayOff, mondayEntry]) (DateArg.str "monday")
        "10:00" ∧
    isAvailable (withSchedule leaveDoctor [saturdayOff, mondayEntry, mondayLater])
        (DateArg.str "monday") "10:00" = Except.ok true :=
  ⟨isAvailable_first_entry_only leaveDoctor "monday" WeekDay.monday "10:00" [saturdayOff]
      mondayEntry [mondayLater] [] (by decide) (by simp [saturdayOff]) rfl,
    by decide⟩

/-! ## The appointment routes -/

theorem insertAppointment_ok (store : List Appointment) (a : Appointment)
    (store' : List Appointment) (h : insertAppointment store a = Except.ok store') :
    store' = store ++ [a] := by
  unfold insertAppointment at h
  split at h
  · cases h
  · split at h
    · cases h
    · cases h; rfl

/-- The day-of-week derivation of line 162 throws for every date: `lowercase` is not a
value of the `weekday` option. -/
theorem dayOfWeek_error (tza date : Int) :
    dayOfWeek tza date = Except.error (JSError.rangeError
      "Value lowercase out of range for Intl.DateTimeFormat options property weekday") := by
  unfold dayOfWeek toLocaleDateString
  rfl

/-- With the option value `long` and lower-casing, the derivation would give the schedule's
name of the weekday. -/
theorem toLowerCase_longName (d : WeekDay) : toLowerCase d.longName = d.name := by
  cases d <;> decide

/-- The creation handler never stores an appointment and never answers 201: a request
that passes validation, lookups and the conflict check ends at line 162. -/
theorem createAppointment_never_persists (tza : Int) (db : Database) (body : CreateBody) :
    (createAppointment tza db body).2 = db ∧
    ∀ a, (createAppointment tza db body).1 ≠ Response.created a := by
  unfold createAppointment
  simp only [dayOfWeek_error]
  split
  · exact ⟨rfl, fun a h => by cases h⟩
  · split
    · exact ⟨rfl, fun a h => by cases h⟩
    · exact ⟨rfl, fun a h => by cases h⟩
    · split
      · exact ⟨rfl, fun a h => by cases h⟩
      · exact ⟨rfl, fun a h => by cases h⟩

theorem createAppointment_cases (tza : Int) (db : Database) (body : CreateBody) :
    (createAppointment tza db body).2 = db ∨
    ∃ patient doctor day a,
      db.patients.find? (fun p => p.patientId == body.patientId) = some patient ∧
      db.doctors.find? (fun d => d.doctorId == body.doctorId) = some doctor ∧
      checkConflict tza db.appointments doctor._id body.date body.time
        (body.duration.getD 30) none = false ∧
      dayOfWeek tza body.date = Except.ok day ∧
      isAvailable doctor (DateArg.str day) body.time = Except.ok true ∧
      (createAppointment tza db body).2
        = { db with appointments := db.appointments ++ [a] } := by
  by_cases hv : validateCreate body = true
  · cases hp : db.patients.find? (fun p => p.patientId == body.patientId) with
    | none => left; simp [createAppointment, hv, hp]
    | some patient =>
      cases hd : db.doctors.find? (fun d => d.doctorId == body.doctorId) with
      | none => left; simp [createAppointment, hv, hp, hd]
      | some doctor =>
        cases hc : checkConflict tza db.appointments doctor._id body.date body.time
          (body.duration.getD 30) none with
        | true => left; simp [createAppointment, hv, hp, hd, hc]
        | false =>
          cases hday : dayOfWeek tza body.date with
          | error e => left; simp [createAppointment, hv, hp, hd, hc, hday]
          | ok day =>
            cases hav : isAvailable doctor (DateArg.str day) body.time with
            | error e => left; simp [createAppointment, hv, hp, hd, hc, hday, hav]
            | ok b =>
              cases b with
              | false => left; simp [createAppointment, hv, hp, hd, hc, hday, hav]
              | true =>
                cases hins : insertAppointment db.appointments
                  { _id := freshId db.appointments,
                    appointmentId := generateAppointmentId db.appointments.length,
                    patientId := patient._id, doctorId := doctor._id, date := body.date,
                    time := body.time, duration := body.duration.getD 30,
                    status := Status.scheduled } with
                | error e => left; simp [createAppointment, hv, hp, hd, hc, hday, hav, hins]
                | ok store' =>
                  right
                  refine ⟨patient, doctor, day,
                    { _id := freshId db.appointments,
                      appointmentId := generateAppointmentId db.appointments.length,
                      patientId := patient._id, doctorId := doctor._id, date := body.date,
                      time := body.time, duration := body.duration.getD 30,
                      status := Status.scheduled }, rfl, rfl, hc, rfl, hav, ?_⟩
                  simp [createAppointment, hv, hp, hd, hc, hday, hav, hins,
                    insertAppointment_ok _ _ _ hins]
  · left
    simp [createAppointment, hv]


theorem createAppointment_of_conflict (tza : Int) (db : Database) (body : CreateBody)
    (patient : Patient) (doctor : Doctor) (hv : validateCreate body = true)
    (hp : db.patients.find? (fun p => p.patientId == body.patientId) = some patient)
    (hd : db.doctors.find? (fun d => d.doctorId == body.doctorId) = some doctor)
    (hc : checkConflict tza db.appointments doctor._id body.date body.time
      (body.duration.getD 30) none = true) :
    createAppointment tza db body
      = (Response.error 400 "Appointment time conflicts with existing appointment", db) := by
  simp [createAppointment, hv, hp, hd, hc]

theorem createAppointment_of_no_conflict (tza : Int) (db : Database) (body : CreateBody)
    (patient : Patient) (doctor : Doctor) (hv : validateCreate body = true)
    (hp : db.patients.find? (fun p => p.patientId == body.patientId) = some patient)
    (hd : db.doctors.find? (fun d => d.doctorId == body.doctorId) = some doctor)
    (hc : checkConflict tza db.appointments doctor._id body.date body.time
      (body.duration.getD 30) none = false) :
    createAppointment tza db body = (Response.error 500 "Server error", db) := by
  simp [createAppointment, hv, hp, hd, hc, dayOfWeek_error]

/-- For a user who is not a doctor the update handler does not look at the doctors at
all: no schedule, leave range or flag bears on the result. -/
theorem updateAppointment_ignores_doctors (tza : Int) (db : Database) (user : User)
    (id : ObjectId) (body : UpdateBody) (doctors : List Doctor) (h : user.role ≠ Role.doctor) :
    (updateAppointment tza { db with doctors := doctors } user id body).1
      = (updateAppointment tza db user id body).1 ∧
    (updateAppointment tza { db with doctors := doctors } user id body).2.appointments
      = (updateAppointment tza db user id body).2.appointments := by
  have hr : (user.role == Role.doctor) = false := by
    cases hrole : user.role <;> simp_all
  unfold updateAppointment
  simp only [hr, Bool.false_and, Bool.false_eq_true, if_false]
  cases db.appointments.find? (fun a => a._id == id) with
  | none => split_ifs <;> exact ⟨rfl, rfl⟩
  | some appointment =>
    simp only
    split_ifs <;> exact ⟨rfl, rfl⟩

/-- The time value the `date` object holds after `checkConflict`: the last millisecond of
its local day. -/
theorem checkConflictRun_date (tza : Int) (store : List Appointment) (doctorId : ObjectId)
    (date : Int) (time : String) (duration : Int) (excludeId : Option ObjectId) :
    (checkConflictRun tza store doctorId date time duration excludeId).2
      = localMidnight tza date + (msPerDay - 1) := by
  simp [checkConflictRun, queryWindow_eq]

/-- The documents the query returns: those of the doctor, dated on the candidate's local
day but not at its last millisecond, neither cancelled nor no-show, without the excluded
id. -/
theorem mem_conflictingAppointments_day (tza : Int) (store : List Appointment)
    (doctorId : ObjectId) (date : Int) (excludeId : Option ObjectId) (a : Appointment) :
    a ∈ conflictingAppointments tza store doctorId date excludeId ↔
      a ∈ store ∧ a.doctorId = doctorId ∧ sameLocalDay tza a.date date ∧
        (a.date + tza) % msPerDay ≠ msPerDay - 1 ∧
        isActive a = true ∧ (∀ id, excludeId = some id → a._id ≠ id) := by
  rw [mem_conflictingAppointments]
  constructor
  · rintro ⟨h1, h2, h3, h4, h5, h6⟩
    refine ⟨h1, h2, sameLocalDay_of_window tza date a.date h3 h4, ?_, h5, h6⟩
    rw [queryWindow_eq] at h3 h4
    simp only [localMidnight, msPerDay] at h3 h4 ⊢
    omega
  · rintro ⟨h1, h2, h3, h4, h5, h6⟩
    have hw := window_of_sameLocalDay tza date a.date h3 h4
    exact ⟨h1, h2, hw.1, hw.2, h5, h6⟩

/-! ## Claims on the appointment routes -/

/-- Claim C12. For every creation request the store changes only if the patient and the
doctor exist, `checkConflict` is false for the requested interval and the handler's
availability check returned true; when the conflict check is true, or the availability
check does not return true, the store is unchanged. -/
theorem createAppointment_persists_only_after_checks (tza : Int) (db : Database)
    (body : CreateBody) :
    ((createAppointment tza db body).2 = db ∨
      ∃ patient doctor day a,
        db.patients.find? (fun p => p.patientId == body.patientId) = some patient ∧
        db.doctors.find? (fun d => d.doctorId == body.doctorId) = some doctor ∧
        checkConflict tza db.appointments doctor._id body.date body.time
          (body.duration.getD 30) none = false ∧
        dayOfWeek tza body.date = Except.ok day ∧
        isAvailable doctor (DateArg.str day) body.time = Except.ok true ∧
        (createAppointment tza db body).2
          = { db with appointments := db.appointments ++ [a] }) ∧
    (∀ doctor, db.doctors.find? (fun d => d.doctorId == body.doctorId) = some doctor →
      (checkConflict tza db.appointments doctor._id body.date body.time
          (body.duration.getD 30) none = true ∨
        ∀ day, dayOfWeek tza body.date = Except.ok day →
          isAvailable doctor (DateArg.str day) body.time ≠ Except.ok true) →
      (createAppointment tza db body).2 = db) := by
  refine ⟨createAppointment_cases tza db body, ?_⟩
  intro doctor hd hfail
  rcases createAppointment_cases tza db body with h | ⟨_, doctor', day, _, _, hd', hc, hday, hav, _⟩
  · exact h
  · rw [hd] at hd'
    cases hd'
    rcases hfail with h | h
    · rw [h] at hc; cases hc
    · exact absurd hav (h day hday)

/-- Instance of claim C12: a request overlapping the 18:00 booking leaves the store as it
was. -/
theorem createAppointment_persists_only_after_checks_witness :
    checkConflict 0 routeDb.appointments leaveDoctor._id (createAt "18:15").date
      (createAt "18:15").time ((createAt "18:15").duration.getD 30) none = true ∧
    (createAppointment 0 routeDb (createAt "18:15")).2 = routeDb :=
  ⟨by decide,
    (createAppointment_persists_only_after_checks 0 routeDb (createAt "18:15")).2 leaveDoctor
      (by decide) (Or.inl (by decide))⟩

/-- Claim C13, evaluated where it fails. The doctor is open on Mondays 09:00-17:00; an
update moving the Monday 14:00 appointment to 20:00, where nothing else is booked, is
answered 200 and stored, although `isAvailable` is false for Monday 20:00: the update
handler runs the conflict check only. -/
theorem updateAppointment_persists_outside_hours :
    weekDayOf (LocalTime 0 scenarioDate) = WeekDay.monday ∧
    isAvailable leaveDoctor (DateArg.str "monday") "20:00" = Except.ok false ∧
    (updateAppointment 0 routeDb adminUser 1 (moveTo "20:00")).1.status = 200 ∧
    (updateAppointment 0 routeDb adminUser 1 (moveTo "20:00")).2.appointments
      = [{ scenarioActive 10 with time := "20:00" }, lateAppt] := by
  decide

/-- Claim C14 fails: for a request on Monday at 18:15, when the doctor (open 09:00-17:00)
is not available and the interval overlaps the 18:00 booking, the answer is the conflict
message, not the unavailability one. -/
theorem createAppointment_conflict_reported_first :
    isAvailable leaveDoctor (DateArg.str "monday") "18:15" = Except.ok false ∧
    (createAppointment 0 routeDb (createAt "18:15")).1
      = Response.error 400 "Appointment time conflicts with existing appointment" := by
  decide

/-- Claim C14 as amended. In the creation flow the conflict check comes first and the
availability check is reached only without a conflict: every validated request whose
patient and doctor exist and whose interval overlaps an existing booking is rejected with
the conflict message and the store unchanged, whatever the doctor's availability; without
an overlap the answer is never the conflict message. -/
theorem createAppointment_conflict_checked_first (tza : Int) (db : Database)
    (body : CreateBody) (patient : Patient) (doctor : Doctor)
    (hv : validateCreate body = true)
    (hp : db.patients.find? (fun p => p.patientId == body.patientId) = some patient)
    (hd : db.doctors.find? (fun d => d.doctorId == body.doctorId) = some doctor) :
    (checkConflict tza db.appointments doctor._id body.date body.time
        (body.duration.getD 30) none = true →
      createAppointment tza db body
        = (Response.error 400 "Appointment time conflicts with existing appointment", db)) ∧
    (checkConflict tza db.appointments doctor._id body.date body.time
        (body.duration.getD 30) none = false →
      (createAppointment tza db body).1
        ≠ Response.error 400 "Appointment time conflicts with existing appointment") := by
  constructor
  · exact createAppointment_of_conflict tza db body patient doctor hv hp hd
  · intro hc
    rw [createAppointment_of_no_conflict tza db body patient doctor hv hp hd hc]
    intro h
    cases h

/-- Instance of claim C14 as amended: the request for Monday 14:15 overlaps the 14:00
booking while the doctor is available at that time. -/
theorem createAppointment_conflict_checked_first_witness :
    isAvailable leaveDoctor (DateArg.str "monday") "14:15" = Except.ok true ∧
    createAppointment 0 routeDb (createAt "14:15")
      = (Response.error 400 "Appointment time conflicts with existing appointment", routeDb) :=
  ⟨by decide,
    (createAppointment_conflict_checked_first 0 routeDb (createAt "14:15") patientOne
      leaveDoctor (by decide) (by decide) (by decide)).1 (by decide)⟩

/-- Claim C15, evaluated where it fails. After `checkConflict` for 2024-06-10T00:00:00.000
(UTC) the `Date` object passed in holds 2024-06-10T23:59:59.999; in the update handler,
which passes the document's own date when only the time changes, the document answered
carries that moved date. -/
theorem checkConflict_moves_its_date_argument :
    (checkConflictRun 0 routeDb.appointments 10 scenarioDate "15:00" 30 (some 1)).2
      = scenarioDate + 86399999 ∧
    (updateAppointment 0 routeDb adminUser 1 (moveTo "15:00")).1
      = Response.updated
          { scenarioActive 10 with date := scenarioDate + 86399999, time := "15:00" } := by
  decide

/-- Claim C16, evaluated where it fails. An active appointment of doctor 10 dated
2024-06-10T23:59:59.999 (UTC) lies on the local day of the candidate date 2024-06-10, at
its last millisecond, and the query does not return it. -/
theorem conflictingAppointments_misses_day_end :
    dayEndAppt.doctorId = 10 ∧ isActive dayEndAppt = true ∧
    sameLocalDay 0 dayEndAppt.date scenarioDate ∧
    dayEndAppt.date = localMidnight 0 scenarioDate + 86399999 ∧
    conflictingAppointments 0 [dayEndAppt] 10 scenarioDate none = [] := by
  decide

/-- Claim C17, evaluated where it fails. The validator accepts "9:00", "09:00" and
"17:00"; as minutes of the day 9:00 lies within 09:00-17:00, but the string comparison
of `isAvailable` puts it outside, and `isAvailable` returns false. -/
theorem string_comparison_differs_on_one_digit_hour :
    matchesTimeRegex "9:00" = true ∧ matchesTimeRegex "09:00" = true ∧
    matchesTimeRegex "17:00" = true ∧
    minuteOfDay "9:00" = some 540 ∧ minuteOfDay "09:00" = some 540 ∧
    minuteOfDay "17:00" = some 1020 ∧
    (strGe "9:00" (some "09:00") && strLe "9:00" (some "17:00")) = false ∧
    isAvailable leaveDoctor (DateArg.str "monday") "9:00" = Except.ok false := by
  decide

/-- Claim C18, evaluated where it fails. For every date the derivation of line 162 throws
a RangeError instead of giving a day name; 2024-06-10, a Monday, is one such date. -/
theorem dayOfWeek_never_gives_a_name :
    (∀ tza date : Int, dayOfWeek tza date = Except.error (JSError.rangeError
      "Value lowercase out of range for Intl.DateTimeFormat options property weekday")) ∧
    weekDayOf (LocalTime 0 scenarioDate) = WeekDay.monday ∧
    dayOfWeek 0 scenarioDate = Except.error (JSError.rangeError
      "Value lowercase out of range for Intl.DateTimeFormat options property weekday") :=
  ⟨dayOfWeek_error, by decide, dayOfWeek_error 0 scenarioDate⟩

/-- Claim C19, evaluated where it fails. A validated request for Monday 20:00, outside
the doctor's hours and free of conflicts, with patient and doctor present, is answered
with status 500. -/
theorem createAppointment_unavailable_answered_500 :
    validateCreate (createAt "20:00") = true ∧
    checkConflict 0 routeDb.appointments leaveDoctor._id scenarioDate "20:00" 30 none = false ∧
    isAvailable leaveDoctor (DateArg.str "monday") "20:00" = Except.ok false ∧
    createAppointment 0 routeDb (createAt "20:00")
      = (Response.error 500 "Server error", routeDb) := by
  decide

/-! ## Time texts -/

theorem parseInt_two_digits :
    ∀ a, a < 10 → ∀ b, b < 10 →
      parseInt (some (String.mk [digitChar a, digitChar b])) = some ((10 * a + b : Nat) : Int) := by
  decide

theorem digitChar_ne_colon (d : Nat) (h : d < 10) : digitChar d ≠ ':' := by
  interval_cases d <;> decide

theorem split_hhmm (h m : Nat) (hh : h < 100) (hm : m < 100) :
    split (hhmm h m) ':'
      = [String.mk [digitChar (h / 10), digitChar (h % 10)],
         String.mk [digitChar (m / 10), digitChar (m % 10)]] := by
  have h1 := digitChar_ne_colon (h / 10) (by omega)
  have h2 := digitChar_ne_colon (h % 10) (by omega)
  have h3 := digitChar_ne_colon (m / 10) (by omega)
  have h4 := digitChar_ne_colon (m % 10) (by omega)
  simp [split, hhmm, splitChars, h1, h2, h3, h4]

/-- Hours and minutes read from a zero-padded `HH:MM` text. -/
theorem parts_hhmm (h m : Nat) (hh : h < 100) (hm : m < 100) :
    hoursOf (hhmm h m) = some (h : Int) ∧ minutesOf (hhmm h m) = some (m : Int) := by
  unfold hoursOf minutesOf
  rw [split_hhmm h m hh hm]
  simp only [List.getElem?_cons_zero, List.getElem?_cons_succ]
  rw [parseInt_two_digits (h / 10) (by omega) (h % 10) (by omega),
    parseInt_two_digits (m / 10) (by omega) (m % 10) (by omega)]
  constructor <;> (simp only [Option.some.injEq]; omega)

/-! ## Claims on the candidate interval and on the algebra of `checkConflict` -/

/-- Claim C21. For every date clear of the limits of time values, every time `HH:MM` with
hour 0..23 and minute 0..59 and every duration from 15 to 120, the candidate interval of
`checkConflict` starts on the date's local day at `HH:MM:00.000` and ends exactly
`duration` minutes later, so the end lies after the start. -/
theorem candidate_interval (tza date : Int) (h m : Nat) (duration : Int)
    (hdate : clearOfLimits date) (hh : h < 24)
    (hm : m < 60) (hd1 : 15 ≤ duration) (hd2 : duration ≤ 120) :
    ∃ s : Int, startOf tza date (hhmm h m) = some s ∧
      s = localMidnight tza date + h * msPerHour + m * msPerMinute ∧
      Day (LocalTime tza s) = Day (LocalTime tza date) ∧
      HourFromTime (LocalTime tza s) = h ∧ MinFromTime (LocalTime tza s) = m ∧
      SecFromTime (LocalTime tza s) = 0 ∧ msFromTime (LocalTime tza s) = 0 ∧
      endOf tza (startOf tza date (hhmm h m)) duration = some (s + duration * msPerMinute) ∧
      dateGt (endOf tza (startOf tza date (hhmm h m)) duration)
        (startOf tza date (hhmm h m)) = true := by
  have hp := parts_hhmm h m (by omega) (by omega)
  have hb := localMidnight_bounds tza date
  simp only [clearOfLimits, maxTimeValue, msPerDay] at hdate
  simp only [msPerDay] at hb
  have hs : startOf tza date (hhmm h m)
      = some (localMidnight tza date + h * msPerHour + m * msPerMinute) := by
    apply startOf_of_atTime
    · simp [atTime, hp.1, hp.2]
    · simp only [isTimeValue, maxTimeValue, msPerHour, msPerMinute]
      omega
  have he : isTimeValue
      (localMidnight tza date + h * msPerHour + m * msPerMinute + duration * msPerMinute) := by
    simp only [isTimeValue, maxTimeValue, msPerHour, msPerMinute]
    omega
  refine ⟨_, hs, rfl, ?_, ?_, ?_, ?_, ?_, ?_, ?_⟩
  · simp only [Day, LocalTime, localMidnight, msPerDay, msPerHour, msPerMinute]; omega
  · simp only [HourFromTime, LocalTime, localMidnight, msPerDay, msPerHour, msPerMinute]; omega
  · simp only [MinFromTime, LocalTime, localMidnight, msPerDay, msPerHour, msPerMinute]; omega
  · simp only [SecFromTime, LocalTime, localMidnight, msPerDay, msPerHour, msPerMinute,
      msPerSecond]; omega
  · simp only [msFromTime, LocalTime, localMidnight, msPerDay, msPerHour, msPerMinute,
      msPerSecond]; omega
  · rw [hs, endOf_some, TimeClip_of_isTimeValue _ he]
  · rw [hs, endOf_some, TimeClip_of_isTimeValue _ he]
    simp only [dateGt, dateLt, decide_eq_true_eq, msPerMinute]
    omega

/-- Instance of claim C21: 2024-06-10 at 23:45 for 30 minutes ends on the next day at
00:15. -/
theorem candidate_interval_witness :
    ∃ s : Int, startOf 0 scenarioDate (hhmm 23 45) = some s ∧
      s = localMidnight 0 scenarioDate + ((23 : Nat) : Int) * msPerHour
        + ((45 : Nat) : Int) * msPerMinute ∧
      Day (LocalTime 0 s) = Day (LocalTime 0 scenarioDate) ∧
      HourFromTime (LocalTime 0 s) = ((23 : Nat) : Int) ∧
      MinFromTime (LocalTime 0 s) = ((45 : Nat) : Int) ∧
      SecFromTime (LocalTime 0 s) = 0 ∧ msFromTime (LocalTime 0 s) = 0 ∧
      endOf 0 (startOf 0 scenarioDate (hhmm 23 45)) 30 = some (s + 30 * msPerMinute) ∧
      dateGt (endOf 0 (startOf 0 scenarioDate (hhmm 23 45)) 30)
        (startOf 0 scenarioDate (hhmm 23 45)) = true :=
  candidate_interval 0 scenarioDate 23 45 30 (by decide) (by decide) (by decide) (by decide)
    (by decide)

/-- Claim C25. The result of `checkConflict` does not depend on the order of the
appointments: the test run over two lists that are permutations of each other gives the
same result, and so does `checkConflict` on two stores that are permutations of each
other. -/
theorem checkConflict_perm (tza : Int) (store store' : List Appointment)
    (doctorId : ObjectId) (date : Int) (time : String) (duration : Int)
    (excludeId : Option ObjectId) (h : store.Perm store') :
    (conflictingAppointments tza store doctorId date excludeId).Perm
        (conflictingAppointments tza store' doctorId date excludeId) ∧
    checkConflict tza store doctorId date time duration excludeId
      = checkConflict tza store' doctorId date time duration excludeId ∧
    (∀ (L L' : List Appointment) (startTime endTime : JSDate), L.Perm L' →
      (L.any fun a => overlaps tza startTime endTime a)
        = (L'.any fun a => overlaps tza startTime endTime a)) := by
  have hany : ∀ (L L' : List Appointment) (p : Appointment → Bool), L.Perm L' →
      L.any p = L'.any p := by
    intro L L' p hp
    rw [Bool.eq_iff_iff, List.any_eq_true, List.any_eq_true]
    exact ⟨fun ⟨a, ha, hpa⟩ => ⟨a, hp.mem_iff.1 ha, hpa⟩,
      fun ⟨a, ha, hpa⟩ => ⟨a, hp.mem_iff.2 ha, hpa⟩⟩
  have hf : (conflictingAppointments tza store doctorId date excludeId).Perm
      (conflictingAppointments tza store' doctorId date excludeId) := by
    unfold conflictingAppointments
    exact h.filter _
  refine ⟨hf, ?_, fun L L' s e hp => hany L L' _ hp⟩
  unfold checkConflict
  exact hany _ _ _ hf

/-- Instance of claim C25: the store of the 2024-06-10 scenario and its reverse. -/
theorem checkConflict_perm_witness :
    checkConflict 0 (scenarioStore 10) 10 scenarioDate "14:15" 30 none
      = checkConflict 0 [scenarioCancelled 10, scenarioActive 10] 10 scenarioDate "14:15" 30
          none :=
  (checkConflict_perm 0 (scenarioStore 10) [scenarioCancelled 10, scenarioActive 10] 10
    scenarioDate "14:15" 30 none (List.Perm.swap _ _ _)).2.1

/-- Claim C28 fails beyond the range of time values: on the store of the 2024-06-10
scenario the 12:00 candidate gets false for 144000000000 minutes, whose end is an invalid
date, and true for 500 minutes. -/
theorem checkConflict_not_monotone_at_invalid_end :
    (0 : Int) < 500 ∧ (500 : Int) ≤ 144000000000 ∧
    endOf 0 (startOf 0 scenarioDate "12:00") 144000000000 = none ∧
    endOf 0 (startOf 0 scenarioDate "12:00") 500
      = some (scenarioDate + 12 * msPerHour + 500 * msPerMinute) ∧
    checkConflict 0 (scenarioStore 10) 10 scenarioDate "12:00" 144000000000 none = false ∧
    checkConflict 0 (scenarioStore 10) 10 scenarioDate "12:00" 500 none = true := by
  decide

/-- Claim C28, as the code has it. `checkConflict` is monotone in the list: when it is
true on a list of appointments it is true on every list containing them. It is monotone in
the duration as long as the candidate's end is a time value: when it is false for a
duration `d` whose end, the start plus `d` minutes, is a time value, it is false for every
duration `d'` with `0 < d' ≤ d`; this covers every `d` up to 1440 for a time of day on a
date clear of the limits. A duration whose end is not a time value gives false. -/
theorem checkConflict_monotone_within_time_values (tza : Int) (store : List Appointment)
    (doctorId : ObjectId) (date : Int) (time : String) (excludeId : Option ObjectId) :
    (∀ (store' : List Appointment) (duration : Int), (∀ a ∈ store, a ∈ store') →
      checkConflict tza store doctorId date time duration excludeId = true →
      checkConflict tza store' doctorId date time duration excludeId = true) ∧
    (∀ d d' : Int, 0 < d' → d' ≤ d →
      (∀ cs, atTime tza date time = some cs → isTimeValue (cs + d * msPerMinute)) →
      checkConflict tza store doctorId date time d excludeId = false →
      checkConflict tza store doctorId date time d' excludeId = false) ∧
    (clearOfLimits date → readsAsTimeOfDay time → ∀ d d' : Int, 0 < d' → d' ≤ d → d ≤ 1440 →
      checkConflict tza store doctorId date time d excludeId = false →
      checkConflict tza store doctorId date time d' excludeId = false) ∧
    (∀ d cs : Int, atTime tza date time = some cs → ¬ isTimeValue (cs + d * msPerMinute) →
      checkConflict tza store doctorId date time d excludeId = false) := by
  have hmono : ∀ d d' : Int, d' ≤ d →
      (∀ cs, atTime tza date time = some cs → isTimeValue (cs + d * msPerMinute)) →
      checkConflict tza store doctorId date time d excludeId = false →
      checkConflict tza store doctorId date time d' excludeId = false := by
    intro d d' hle hr hc
    rw [Bool.eq_false_iff] at hc ⊢
    intro h
    apply hc
    rw [checkConflict_eq_true_iff] at h ⊢
    obtain ⟨a, ha, cs, s, h1, h2, h3, h4, ⟨r1, -⟩, r3⟩ := h
    refine ⟨a, ha, cs, s, h1, h2, h3, ?_, ⟨r1, hr cs h1⟩, r3⟩
    simp only [msPerMinute] at h4 ⊢
    omega
  refine ⟨?_, fun d d' _ hle hr hc => hmono d d' hle hr hc, ?_, ?_⟩
  · intro store' duration hsub hc
    rw [checkConflict_eq_true_iff] at hc ⊢
    obtain ⟨a, ha, rest⟩ := hc
    refine ⟨a, ?_, rest⟩
    rw [mem_conflictingAppointments] at ha ⊢
    exact ⟨hsub a ha.1, ha.2⟩
  · intro hclear htime d d' hpos hle hd hc
    refine hmono d d' hle ?_ hc
    intro cs hcs
    have hb := localMidnight_bounds tza date
    have hcb := atTime_bounds tza date time cs htime hcs
    simp only [clearOfLimits, maxTimeValue, msPerDay] at hclear
    simp only [msPerDay] at hb hcb
    simp only [isTimeValue, maxTimeValue, msPerMinute]
    omega
  · intro d cs hcs hr
    rw [Bool.eq_false_iff]
    intro h
    rw [checkConflict_eq_true_iff] at h
    obtain ⟨a, ha, cs', s, h1, h2, h3, h4, ⟨r1, r2⟩, r3⟩ := h
    rw [hcs] at h1
    cases h1
    exact hr r2

/-- Instance of claim C28, as the code has it: the 14:15 candidate on the scenario store
and on a larger one; the 13:00 candidate for 60 and for 30 minutes. -/
theorem checkConflict_monotone_within_time_values_witness :
    checkConflict 0 (lateAppt :: scenarioStore 10) 10 scenarioDate "14:15" 30 none = true ∧
    checkConflict 0 (scenarioStore 10) 10 scenarioDate "13:00" 30 none = false ∧
    checkConflict 0 (scenarioStore 10) 10 scenarioDate "13:00" 144000000000 none = false :=
  have h := checkConflict_monotone_within_time_values 0 (scenarioStore 10) 10 scenarioDate
  ⟨(h "14:15" none).1 (lateAppt :: scenarioStore 10) 30
      (fun a ha => List.mem_cons_of_mem _ ha) (by decide),
    (h "13:00" none).2.2.1 (by decide)
      ⟨13, 0, by decide, by decide, by decide, by decide, by decide, by decide⟩
      60 30 (by decide) (by decide) (by decide) (by decide),
    (h "13:00" none).2.2.2 144000000000 (scenarioDate + 13 * msPerHour) (by decide)
      (by decide)⟩

theorem digitChar_of_isDecimalDigit (c : Char) (h : isDecimalDigit c = true) :
    ∃ d, d < 10 ∧ c = digitChar d := by
  simp only [isDecimalDigit, Bool.and_eq_true, decide_eq_true_eq] at h
  refine ⟨c.toNat - 48, by omega, ?_⟩
  unfold digitChar
  rw [show 48 + (c.toNat - 48) = c.toNat by omega, Char.ofNat_toNat]

theorem digitChar_of_isDigit05 (c : Char) (h : isDigit05 c = true) :
    ∃ d, d < 6 ∧ c = digitChar d := by
  simp only [isDigit05, Bool.and_eq_true, decide_eq_true_eq] at h
  refine ⟨c.toNat - 48, by omega, ?_⟩
  unfold digitChar
  rw [show 48 + (c.toNat - 48) = c.toNat by omega, Char.ofNat_toNat]

theorem matchesTimeRegex_hhmm : ∀ h, h < 24 → ∀ m, m < 60 → matchesTimeRegex (hhmm h m) = true := by
  decide

theorem matchesTimeRegex_hmm1 : ∀ h, h < 10 → ∀ m, m < 60 → matchesTimeRegex (hmm1 h m) = true := by
  decide

theorem hhmm_of_digits (a b c d : Nat) (_ha : a < 10) (hb : b < 10) (_hc : c < 10)
    (hd : d < 10) :
    String.mk [digitChar a, digitChar b, ':', digitChar c, digitChar d]
      = hhmm (10 * a + b) (10 * c + d) := by
  unfold hhmm
  rw [show (10 * a + b) / 10 = a by omega, show (10 * a + b) % 10 = b by omega,
    show (10 * c + d) / 10 = c by omega, show (10 * c + d) % 10 = d by omega]

theorem hmm1_of_digits (a c d : Nat) (_hc : c < 10) (hd : d < 10) :
    String.mk [digitChar a, ':', digitChar c, digitChar d] = hmm1 a (10 * c + d) := by
  unfold hmm1
  rw [show (10 * c + d) / 10 = c by omega, show (10 * c + d) % 10 = d by omega]

/-- The texts the time validator accepts: a zero-padded `HH:MM` with hour below 24 and
minute below 60, or `H:MM` with a one-digit hour. -/
theorem matchesTimeRegex_iff (s : String) :
    matchesTimeRegex s = true ↔
      (∃ h m, h < 24 ∧ m < 60 ∧ s = hhmm h m) ∨ (∃ h m, h < 10 ∧ m < 60 ∧ s = hmm1 h m) := by
  constructor
  · intro h
    obtain ⟨cs⟩ := s
    unfold matchesTimeRegex at h
    simp only at h
    split at h
    · rename_i hh m1 m2
      simp only [Bool.and_eq_true] at h
      obtain ⟨⟨h1, h2⟩, h3⟩ := h
      obtain ⟨a, ha, rfl⟩ := digitChar_of_isDecimalDigit _ h1
      obtain ⟨c, hc, rfl⟩ := digitChar_of_isDigit05 _ h2
      obtain ⟨d, hd, rfl⟩ := digitChar_of_isDecimalDigit _ h3
      right
      refine ⟨a, 10 * c + d, ha, by omega, ?_⟩
      rw [← hmm1_of_digits a c d (by omega) hd]
    · rename_i h1 h2 m1 m2
      simp only [Bool.and_eq_true] at h
      obtain ⟨⟨hhour, hm1⟩, hm2⟩ := h
      obtain ⟨c, hc, rfl⟩ := digitChar_of_isDigit05 _ hm1
      obtain ⟨d, hd, rfl⟩ := digitChar_of_isDecimalDigit _ hm2
      left
      simp only [Bool.or_eq_true, Bool.and_eq_true, decide_eq_true_eq] at hhour
      rcases hhour with ⟨h01, hd2⟩ | ⟨⟨h2eq, hlo⟩, hhi⟩
      · obtain ⟨b, hb, rfl⟩ := digitChar_of_isDecimalDigit _ hd2
        rcases h01 with rfl | rfl
        · refine ⟨10 * 0 + b, 10 * c + d, by omega, by omega, ?_⟩
          rw [← hhmm_of_digits 0 b c d (by omega) hb (by omega) hd]
          rfl
        · refine ⟨10 * 1 + b, 10 * c + d, by omega, by omega, ?_⟩
          rw [← hhmm_of_digits 1 b c d (by omega) hb (by omega) hd]
          rfl
      · subst h2eq
        have hb : isDecimalDigit h2 = true := by
          simp only [isDecimalDigit, Bool.and_eq_true, decide_eq_true_eq]; omega
        obtain ⟨b, hb', rfl⟩ := digitChar_of_isDecimalDigit _ hb
        have hb3 : b < 4 := by
          have : (digitChar b).toNat = 48 + b := toNat_ofNat_of_lt _ (by omega)
          omega
        refine ⟨10 * 2 + b, 10 * c + d, by omega, by omega, ?_⟩
        rw [← hhmm_of_digits 2 b c d (by omega) hb' (by omega) hd]
        rfl
    · cases h
  · rintro (⟨h, m, hh, hm, rfl⟩ | ⟨h, m, hh, hm, rfl⟩)
    · exact matchesTimeRegex_hhmm h hh m hm
    · exact matchesTimeRegex_hmm1 h hh m hm

theorem validateAppointment_duration (a : Appointment) (h : validateAppointment a = true) :
    15 ≤ a.duration ∧ a.duration ≤ 120 := by
  simp only [validateAppointment, Bool.and_eq_true, decide_eq_true_eq] at h
  exact ⟨h.1.1.1, h.1.1.2⟩

theorem insertAppointment_duration (store : List Appointment) (a : Appointment)
    (store' : List Appointment) (h : insertAppointment store a = Except.ok store') :
    15 ≤ a.duration ∧ a.duration ≤ 120 := by
  unfold insertAppointment at h
  split at h
  · cases h
  · rename_i hv
    exact validateAppointment_duration a (by simpa using hv)

theorem updateAppointment_updated_valid (tza : Int) (db : Database) (user : User)
    (id : ObjectId) (body : UpdateBody) (a : Appointment)
    (h : (updateAppointment tza db user id body).1 = Response.updated a) :
    validateAppointment a = true := by
  unfold updateAppointment at h
  split at h
  · cases h
  · split at h
    · cases h
    · split at h
      · cases h
      · simp only at h
        split at h
        · cases h
        · split_ifs at h with h1 h2 h3
          all_goals cases h
          all_goals simp_all

theorem updateAppointment_of_conflict (tza : Int) (db : Database) (user : User)
    (id : ObjectId) (body : UpdateBody) (appointment : Appointment)
    (hfind : db.appointments.find? (fun a => a._id == id) = some appointment)
    (hrole : user.role ≠ Role.doctor)
    (htime : ∀ t, body.time = some t → matchesTimeRegex t = true)
    (hchecked : (body.date.isSome || body.time.isSome) = true)
    (hc : checkConflict tza db.appointments appointment.doctorId
      (body.date.getD appointment.date) (body.time.getD appointment.time)
      (updateDuration body appointment) (some appointment._id) = true) :
    updateAppointment tza db user id body
      = (Response.error 400 "Appointment time conflicts with existing appointment", db) := by
  have hr : (user.role == Role.doctor) = false := by
    cases hrole' : user.role <;> simp_all
  unfold updateDuration at hc
  unfold updateAppointment
  cases ht : body.time with
  | none =>
    simp only [ht] at hc hchecked
    simp only [hfind, hr, hchecked, hc, Bool.false_and, Bool.false_eq_true, if_false,
      Bool.and_self, if_true]
  | some t =>
    have hm := htime t ht
    simp only [ht] at hc hchecked
    simp only [hm, hfind, hr, hchecked, hc, Bool.false_and, Bool.false_eq_true, if_false,
      Bool.and_self, if_true, Bool.not_true]

/-- Claim C22 fails: a creation request and an update request with duration 500 pass
validation and reach the conflict check, which is run with 500 minutes; the 12:00
candidate conflicts with the 14:00 booking for 500 minutes and not for 120. -/
theorem duration_500_reaches_checkConflict :
    validateCreate longRequest = true ∧ createDuration longRequest = 500 ∧
    updateDuration longMove lateAppt = 500 ∧
    checkConflict 0 routeDb.appointments 10 scenarioDate "12:00" 500 none = true ∧
    checkConflict 0 routeDb.appointments 10 scenarioDate "12:00" 120 none = false ∧
    (createAppointment 0 routeDb longRequest).1
      = Response.error 400 "Appointment time conflicts with existing appointment" ∧
    (updateAppointment 0 routeDb adminUser 6 longMove).1
      = Response.error 400 "Appointment time conflicts with existing appointment" := by
  decide

/-- Claim C22, as the code has it. The handlers hand the request's duration to `checkConflict`
without a range check (creation: the body's duration, 30 when absent; update: the body's
duration, the stored one when it is absent or 0), and a conflict found with it is what
they answer; the range 15..120 is enforced by the schema validation of `save`: every
document an update answers with, and every document an insert stores, has a duration
from 15 to 120. -/
theorem duration_checked_on_save_only (tza : Int) (db : Database) :
    (∀ (body : CreateBody) (patient : Patient) (doctor : Doctor),
      validateCreate body = true →
      db.patients.find? (fun p => p.patientId == body.patientId) = some patient →
      db.doctors.find? (fun d => d.doctorId == body.doctorId) = some doctor →
      checkConflict tza db.appointments doctor._id body.date body.time (createDuration body)
        none = true →
      createAppointment tza db body
        = (Response.error 400 "Appointment time conflicts with existing appointment", db)) ∧
    (∀ (user : User) (id : ObjectId) (body : UpdateBody) (appointment : Appointment),
      db.appointments.find? (fun a => a._id == id) = some appointment →
      user.role ≠ Role.doctor → (∀ t, body.time = some t → matchesTimeRegex t = true) →
      (body.date.isSome || body.time.isSome) = true →
      checkConflict tza db.appointments appointment.doctorId
        (body.date.getD appointment.date) (body.time.getD appointment.time)
        (updateDuration body appointment) (some appointment._id) = true →
      updateAppointment tza db user id body
        = (Response.error 400 "Appointment time conflicts with existing appointment", db)) ∧
    (∀ (user : User) (id : ObjectId) (body : UpdateBody) (a : Appointment),
      (updateAppointment tza db user id body).1 = Response.updated a →
      15 ≤ a.duration ∧ a.duration ≤ 120) ∧
    (∀ (a : Appointment) (store' : List Appointment),
      insertAppointment db.appointments a = Except.ok store' →
      15 ≤ a.duration ∧ a.duration ≤ 120) :=
  ⟨fun body patient doctor hv hp hd hc =>
      createAppointment_of_conflict tza db body patient doctor hv hp hd hc,
    fun user id body appointment hf hr ht hch hc =>
      updateAppointment_of_conflict tza db user id body appointment hf hr ht hch hc,
    fun user id body a h =>
      validateAppointment_duration a (updateAppointment_updated_valid tza db user id body a h),
    fun a store' h => insertAppointment_duration db.appointments a store' h⟩

/-- Instance of claim C22 as amended: the update moving the 14:00 appointment to 15:00 is
answered with a document of 30 minutes. -/
theorem duration_checked_on_save_only_witness :
    (updateAppointment 0 routeDb adminUser 1 (moveTo "15:00")).1
      = Response.updated
          { scenarioActive 10 with date := scenarioDate + 86399999, time := "15:00" } ∧
    (15 : Int) ≤ 30 ∧ (30 : Int) ≤ 120 :=
  ⟨by decide,
    (duration_checked_on_save_only 0 routeDb).2.2.1 adminUser 1 (moveTo "15:00")
      { scenarioActive 10 with date := scenarioDate + 86399999, time := "15:00" } (by decide)⟩

/-- Claim C26, evaluated where it fails. The validator accepts "9:00", which has one hour
digit; a creation request with that time passes validation. "24:00" is rejected with the
validator's message. -/
theorem time_validator_accepts_one_digit_hour :
    matchesTimeRegex "9:00" = true ∧ "9:00" = hmm1 9 0 ∧ "9:00".length = 4 ∧
    createErrors (createAt "9:00") = [] ∧ validateCreate (createAt "9:00") = true ∧
    createErrors (createAt "24:00") = ["Valid time format (HH:MM) is required"] ∧
    createAppointment 0 routeDb (createAt "24:00") = (Response.validationErrors, routeDb) := by
  decide

/-- Claim C26, as the code has it. The validator accepts exactly the texts of two hour
digits from 00 to 23 or one hour digit from 0 to 9, a colon, and two minute digits from
00 to 59; a creation request with any other time text gets the validator's message and
is answered with the validation errors, and so is an update request that carries one. -/
theorem time_validator_language (s : String) :
    (matchesTimeRegex s = true ↔
      (∃ h m, h < 24 ∧ m < 60 ∧ s = hhmm h m) ∨ (∃ h m, h < 10 ∧ m < 60 ∧ s = hmm1 h m)) ∧
    (matchesTimeRegex s = false → ∀ (tza : Int) (db : Database) (body : CreateBody),
      body.time = s →
        "Valid time format (HH:MM) is required" ∈ createErrors body ∧
        createAppointment tza db body = (Response.validationErrors, db)) ∧
    (matchesTimeRegex s = false →
      ∀ (tza : Int) (db : Database) (user : User) (id : ObjectId) (body : UpdateBody),
        body.time = some s →
          updateAppointment tza db user id body = (Response.validationErrors, db)) := by
  refine ⟨matchesTimeRegex_iff s, ?_, ?_⟩
  · intro h tza db body hb
    subst hb
    constructor
    · simp [createErrors, h]
    · simp [createAppointment, validateCreate, h]
  · intro h tza db user id body hb
    simp [updateAppointment, hb, h]

theorem time_validator_language_witness :
    (matchesTimeRegex "09:30" = true ↔
      (∃ h m, h < 24 ∧ m < 60 ∧ "09:30" = hhmm h m) ∨
        (∃ h m, h < 10 ∧ m < 60 ∧ "09:30" = hmm1 h m)) ∧
    matchesTimeRegex "24:00" = false ∧
    "Valid time format (HH:MM) is required" ∈ createErrors (createAt "24:00") ∧
    createAppointment 0 routeDb (createAt "24:00") = (Response.validationErrors, routeDb) ∧
    updateAppointment 0 routeDb adminUser 1 (moveTo "24:00")
      = (Response.validationErrors, routeDb) :=
  ⟨(time_validator_language "09:30").1, by decide,
    ((time_validator_language "24:00").2.1 (by decide) 0 routeDb (createAt "24:00") rfl).1,
    ((time_validator_language "24:00").2.1 (by decide) 0 routeDb (createAt "24:00") rfl).2,
    (time_validator_language "24:00").2.2 (by decide) 0 routeDb adminUser 1 (moveTo "24:00") rfl⟩

theorem mem_sortedMatches (tza : Int) (db : Database) (user : User) (q : ListQuery)
    (a : Appointment) :
    a ∈ sortedMatches tza db user q ↔
      a ∈ db.appointments ∧ (listFilter tza db user q).test a = true := by
  unfold sortedMatches
  rw [(List.perm_insertionSort _ _).mem_iff, List.mem_filter]

theorem mem_listAppointments (tza : Int) (db : Database) (user : User) (q : ListQuery)
    (a : Appointment) (h : a ∈ (listAppointments tza db user q).appointments) :
    a ∈ db.appointments ∧ (listFilter tza db user q).test a = true := by
  rw [← mem_sortedMatches]
  unfold listAppointments at h
  simp only at h
  split at h
  · simp [ListResponse.appointments] at h
  · simp only [ListResponse.appointments, pageDocs] at h
    split at h
    · exact List.mem_of_mem_drop h
    · exact List.mem_of_mem_drop (List.mem_of_mem_take h)

/-- When a record exists for the user, the list route answers a doctor with that doctor's
appointments only and a patient with that patient's only, whatever the parameters. -/
theorem listAppointments_own_with_record (tza : Int) (db : Database) (user : User)
    (q : ListQuery) :
    (∀ doctor, user.role = Role.doctor →
      db.doctors.find? (fun d => d.doctorId == user.userId) = some doctor →
      ∀ a ∈ (listAppointments tza db user q).appointments, a.doctorId = doctor._id) ∧
    (∀ patient, user.role = Role.patient →
      db.patients.find? (fun p => p.patientId == user.userId) = some patient →
      ∀ a ∈ (listAppointments tza db user q).appointments, a.patientId = patient._id) := by
  constructor
  · intro doctor hr hf a ha
    have h := (mem_listAppointments tza db user q a ha).2
    simp only [listFilter, hr, hf, AppointmentFilter.test, Bool.and_eq_true] at h
    simpa using h.1.2
  · intro patient hr hf a ha
    have h := (mem_listAppointments tza db user q a ha).2
    simp only [listFilter, hr, hf, AppointmentFilter.test, Bool.and_eq_true] at h
    simpa using h.2

/-- Claim C23, evaluated where it fails. Two creations store `A00001` and `A00002`; after
the admin deletes the first, one document is left and the generated id is `A00002`
again, the id of that document, so the next creation is refused by the unique index. -/
theorem generateAppointmentId_repeats_after_delete :
    Reachable (deleteAppointment twoCreated 1).2 ∧
    (deleteAppointment twoCreated 1).2.appointments = [seedSecond] ∧
    seedSecond.appointmentId = "A00002" ∧
    generateAppointmentId (deleteAppointment twoCreated 1).2.appointments.length = "A00002" ∧
    insertAppointment (deleteAppointment twoCreated 1).2.appointments
        { rebooked with appointmentId := generateAppointmentId 1 }
      = Except.error (JSError.duplicateKey "E11000 duplicate key error: appointmentId") := by
  refine ⟨?_, by decide, by decide, by decide, by decide⟩
  apply Reachable.delete
  exact Reachable.create
    { appointments := [seedFirst], doctors := [leaveDoctor], patients := [patientOne] }
    seedSecond [seedFirst, seedSecond]
    (Reachable.create
      { appointments := [], doctors := [leaveDoctor], patients := [patientOne] }
      seedFirst [seedFirst] (Reachable.init _ _) rfl (by decide))
    rfl (by decide)

/-- Claim C24, evaluated where it fails. A user with role doctor for whom no doctor record
exists is answered with the appointments of doctor 10, with and without a `doctorId`
parameter; so is a user with role patient without a patient record. -/
theorem listAppointments_unfiltered_without_record :
    routeDb.doctors.find? (fun d => d.doctorId == ghostDoctor.userId) = none ∧
    (listAppointments 0 routeDb ghostDoctor noParams).appointments
      = [scenarioActive 10, lateAppt] ∧
    (listAppointments 0 routeDb ghostDoctor { noParams with doctorId := some 10 }).appointments
      = [scenarioActive 10, lateAppt] ∧
    routeDb.patients.find? (fun p => p.patientId == ghostPatient.userId) = none ∧
    (listAppointments 0 routeDb ghostPatient noParams).appointments
      = [scenarioActive 10, lateAppt] := by
  decide

/-- Claim C27, evaluated where it fails. Doctor 10 is booked 14:00-14:30 and 14:30-15:00
without overlap; an update of the first appointment with a duration of 60 and no date or
time skips the conflict check, is answered 200, and leaves 14:00-15:00 overlapping
14:30-15:00. Likewise a cancelled 15:00 appointment set back to scheduled by the status
route overlaps the appointment booked into its slot. -/
theorem double_booking_by_update :
    noDoubleBooking 0 adjacentDb.appointments = true ∧
    (updateAppointment 0 adjacentDb adminUser 1 (extendTo 60)).1.status = 200 ∧
    noDoubleBooking 0 (updateAppointment 0 adjacentDb adminUser 1 (extendTo 60)).2.appointments
      = false ∧
    noDoubleBooking 0 rebookedDb.appointments = true ∧
    (updateStatus rebookedDb adminUser 2 Status.scheduled).1.status = 200 ∧
    noDoubleBooking 0 (updateStatus rebookedDb adminUser 2 Status.scheduled).2.appointments
      = false := by
  decide

theorem updateAppointment_updated_cases (tza : Int) (db : Database) (user : User)
    (id : ObjectId) (body : UpdateBody) (a : Appointment)
    (h : (updateAppointment tza db user id body).1 = Response.updated a) :
    ∃ appointment, db.appointments.find? (fun x => x._id == id) = some appointment ∧
      ((body.date.isSome || body.time.isSome) = true →
        checkConflict tza db.appointments appointment.doctorId
          (body.date.getD appointment.date) (body.time.getD appointment.time)
          (updateDuration body appointment) (some appointment._id) = false) ∧
      a.duration = body.duration.getD appointment.duration ∧
      (updateAppointment tza db user id body).2.appointments
        = db.appointments.map fun x => if x._id == id then assignBody body appointment else x := by
  cases hfind : db.appointments.find? (fun x => x._id == id) with
  | none =>
    unfold updateAppointment at h
    rw [hfind] at h
    split_ifs at h
  | some appointment =>
    refine ⟨appointment, rfl, ?_⟩
    unfold updateAppointment at h ⊢
    unfold updateDuration
    rw [hfind] at h ⊢
    simp only at h ⊢
    split at h
    · cases h
    · rename_i hv
      rw [if_neg hv]
      split at h
      · cases h
      · rename_i hrole
        rw [if_neg hrole]
        split at h
        · cases h
        · rename_i hconf
          rw [if_neg hconf]
          have hc : (body.date.isSome || body.time.isSome) = true →
              checkConflict tza db.appointments appointment.doctorId
                (body.date.getD appointment.date) (body.time.getD appointment.time)
                (match body.duration with
                  | some d => if d = 0 then appointment.duration else d
                  | none => appointment.duration) (some appointment._id) = false := by
            intro hc
            rw [hc, Bool.true_and] at hconf
            simpa using hconf
          split_ifs at h ⊢
          all_goals exact ⟨hc, by cases h; rfl, rfl⟩

theorem find_id (store : List Appointment) (id : ObjectId) (a : Appointment)
    (h : store.find? (fun x => x._id == id) = some a) : a._id = id := by
  have := List.find?_some h
  simpa using this

/-- Claim C27, as the code has it. After a successful update whose body has a date or a
time and no doctor, the updated document of the store does not overlap any other stored
document of its doctor that is neither cancelled nor no-show and is dated on the same
local day, before that day's last millisecond. -/
theorem update_checks_requested_day (tza : Int) (db : Database) (user : User)
    (id : ObjectId) (body : UpdateBody) (a : Appointment)
    (hupd : (updateAppointment tza db user id body).1 = Response.updated a)
    (hchecked : (body.date.isSome || body.time.isSome) = true)
    (hdoc : body.doctorId = none) :
    ∀ u ∈ (updateAppointment tza db user id body).2.appointments, u._id = id →
      ∀ b ∈ (updateAppointment tza db user id body).2.appointments, b._id ≠ id →
        b.doctorId = u.doctorId → isActive b = true → sameLocalDay tza b.date u.date →
        (b.date + tza) % msPerDay ≠ msPerDay - 1 →
        intervalsOverlap tza u b = false := by
  obtain ⟨appointment, hfind, hconf, hadur, hstore⟩ :=
    updateAppointment_updated_cases tza db user id body a hupd
  have hvalid := updateAppointment_updated_valid tza db user id body a hupd
  have hid := find_id _ _ _ hfind
  rw [hstore]
  intro u hu huid b hb hbid hbdoc hbact hbday hblast
  have hu' : u = assignBody body appointment := by
    rw [List.mem_map] at hu
    obtain ⟨x, _, hx⟩ := hu
    split at hx
    · exact hx.symm
    · rename_i hne
      subst hx
      simp [huid] at hne
  have hb' : b ∈ db.appointments := by
    rw [List.mem_map] at hb
    obtain ⟨x, hxm, hx⟩ := hb
    split at hx
    · subst hx
      exact absurd (by simpa [assignBody] using hid) hbid
    · subst hx
      exact hxm
  subst hu'
  have hdur : updateDuration body appointment = (assignBody body appointment).duration := by
    have hv := validateAppointment_duration a hvalid
    rw [hadur] at hv
    unfold updateDuration assignBody
    cases hd : body.duration with
    | none => rfl
    | some d =>
      rw [hd] at hv
      simp only [Option.getD_some] at hv ⊢
      rw [if_neg (by omega)]
  have hc := hconf hchecked
  unfold checkConflict at hc
  simp only at hc
  rw [List.any_eq_false] at hc
  have hmem : b ∈ conflictingAppointments tza db.appointments appointment.doctorId
      (body.date.getD appointment.date) (some appointment._id) := by
    rw [mem_conflictingAppointments_day]
    refine ⟨hb', ?_, hbday, hblast, hbact, ?_⟩
    · simpa [assignBody, hdoc] using hbdoc
    · intro i hi
      cases hi
      rw [hid]
      exact hbid
  have := hc b hmem
  unfold intervalsOverlap
  rw [hdur] at this
  simpa [assignBody] using this

theorem update_checks_requested_day_witness :
    (updateAppointment 0 adjacentDb adminUser 1 (moveTo "15:00")).1
      = Response.updated
          { scenarioActive 10 with date := scenarioDate + 86399999, time := "15:00" } ∧
    { scenarioActive 10 with time := "15:00" }
      ∈ (updateAppointment 0 adjacentDb adminUser 1 (moveTo "15:00")).2.appointments ∧
    halfPast ∈ (updateAppointment 0 adjacentDb adminUser 1 (moveTo "15:00")).2.appointments ∧
    intervalsOverlap 0 { scenarioActive 10 with time := "15:00" } halfPast = false :=
  ⟨by decide, by decide, by decide,
    update_checks_requested_day 0 adjacentDb adminUser 1 (moveTo "15:00")
      { scenarioActive 10 with date := scenarioDate + 86399999, time := "15:00" }
      (by decide) (by decide) (by decide)
      { scenarioActive 10 with time := "15:00" } (by decide) (by decide)
      halfPast (by decide) (by decide) (by decide) (by decide) (by decide) (by decide)⟩

/-! ## Appointment ids -/

theorem coreDigitChar_eq (d : Nat) (h : d < 10) : Nat.digitChar d = digitChar d := by
  interval_cases d <;> decide

theorem toDigitsCore_eq (fuel : Nat) : ∀ (n : Nat) (ds : List Char), 0 < n → n < fuel →
    Nat.toDigitsCore 10 fuel n ds = (Nat.digits 10 n).reverse.map digitChar ++ ds := by
  induction fuel with
  | zero => intro n ds _ h; omega
  | succ fuel ih =>
    intro n ds hpos hlt
    rw [Nat.digits_def' (by decide) hpos]
    simp only [Nat.toDigitsCore, List.reverse_cons, List.map_append, List.map_cons, List.map_nil,
      List.append_assoc, List.singleton_append]
    rw [coreDigitChar_eq (n % 10) (Nat.mod_lt _ (by decide))]
    by_cases h0 : n / 10 = 0
    · simp [h0]
    · rw [if_neg h0, ih (n / 10) _ (Nat.pos_of_ne_zero h0) (by omega)]

/-- The digits `String(n)` writes are the decimal digits of `n`. -/
theorem toDigits_eq_decimalText (n : Nat) : Nat.toDigits 10 n = decimalText n := by
  unfold decimalText
  by_cases h : n = 0
  · subst h; decide
  · rw [if_neg h]
    unfold Nat.toDigits
    rw [toDigitsCore_eq (n + 1) n [] (Nat.pos_of_ne_zero h) (by omega), List.append_nil]

theorem generateAppointmentId_data (n : Nat) :
    (generateAppointmentId n).data
      = 'A' :: (List.replicate (5 - (decimalText (n + 1)).length) '0' ++ decimalText (n + 1)) := by
  unfold generateAppointmentId padStart
  rw [toDigits_eq_decimalText]
  rfl

theorem decimalText_length_le (n : Nat) (h : n ≤ 99999) : (decimalText n).length ≤ 5 := by
  unfold decimalText
  split
  · simp
  · simp only [List.length_map, List.length_reverse]
    have h1 := Nat.le_digits_len_le 10 n 99999 h
    have h2 : (Nat.digits 10 99999).length = 5 := by norm_num
    omega

theorem digitValue_digits (n : Nat) :
    ((decimalText (n + 1)).reverse.map fun c => c.toNat - 48) = Nat.digits 10 (n + 1) := by
  unfold decimalText
  rw [if_neg (by omega), ← List.map_reverse, List.reverse_reverse, List.map_map]
  conv_rhs => rw [← List.map_id (Nat.digits 10 (n + 1))]
  apply List.map_congr_left
  intro d hd
  have hlt : d < 10 := Nat.digits_lt_base (by decide) hd
  simp only [Function.comp, digitChar, id]
  rw [toNat_ofNat_of_lt _ (by omega)]
  omega

theorem padded_value (n : Nat) :
    Nat.ofDigits 10 (((generateAppointmentId n).data.drop 1).reverse.map fun c => c.toNat - 48)
      = n + 1 := by
  rw [generateAppointmentId_data]
  simp only [List.drop_succ_cons, List.drop_zero, List.reverse_append, List.map_append,
    Nat.ofDigits_append, digitValue_digits, Nat.ofDigits_digits, List.reverse_replicate,
    List.map_replicate]
  have hz : ∀ k, Nat.ofDigits 10 (List.replicate k (('0' : Char).toNat - 48)) = 0 := by
    intro k
    induction k with
    | zero => rfl
    | succ k ih =>
      rw [List.replicate_succ, Nat.ofDigits_cons, ih]
      decide
  rw [hz]
  simp

/-! ## Claims on appointment ids -/

/-- Claim C29. For every document count `n`, `generateAppointmentId` returns the letter A
followed by the decimal digits of `n + 1` left-padded with zeros to at least five digits;
the result has exactly six characters when `n + 1 ≤ 99999`, and distinct counts give
distinct ids. -/
theorem generateAppointmentId_format (n : Nat) :
    generateAppointmentId n
      = String.mk ('A' :: (List.replicate (5 - (Nat.digits 10 (n + 1)).length) '0'
          ++ (Nat.digits 10 (n + 1)).reverse.map digitChar)) ∧
    (generateAppointmentId n).length
      = 1 + max 5 (Nat.digits 10 (n + 1)).length ∧
    (n + 1 ≤ 99999 → (generateAppointmentId n).length = 6) ∧
    (∀ m, generateAppointmentId n = generateAppointmentId m → n = m) := by
  have hdata := generateAppointmentId_data n
  have htext : decimalText (n + 1) = (Nat.digits 10 (n + 1)).reverse.map digitChar := by
    unfold decimalText
    rw [if_neg (by omega)]
  have hlen : (generateAppointmentId n).length = 1 + max 5 (Nat.digits 10 (n + 1)).length := by
    rw [String.length, hdata, htext]
    simp only [List.length_cons, List.length_append, List.length_replicate, List.length_map,
      List.length_reverse]
    omega
  refine ⟨?_, hlen, ?_, ?_⟩
  · apply String.ext
    rw [hdata, htext]
    simp only [List.length_map, List.length_reverse]
  · intro h
    have h5 := decimalText_length_le (n + 1) h
    rw [htext] at h5
    simp only [List.length_map, List.length_reverse] at h5
    rw [hlen]
    omega
  · intro m h
    have h1 := padded_value n
    have h2 := padded_value m
    rw [h, h2] at h1
    omega

/-- Instance of claim C29: the ids of the seed data, and the id after 99999 documents. -/
theorem generateAppointmentId_format_witness :
    generateAppointmentId 0 = "A00001" ∧ generateAppointmentId 1 = "A00002" ∧
    (generateAppointmentId 41).length = 6 ∧ generateAppointmentId 99999 = "A100000" :=
  ⟨by decide, by decide,
    (generateAppointmentId_format 41).2.2.1 (by decide), by decide⟩

/-! ## The list route -/

theorem ceil_div_eq (total limit : Nat) (hl : 1 ≤ limit) :
    ⌈(total : ℚ) / (limit : ℚ)⌉₊ = (total + limit - 1) / limit := by
  have hpos : (0 : ℚ) < (limit : ℚ) := by exact_mod_cast hl
  apply le_antisymm
  · rw [Nat.ceil_le, div_le_iff₀ hpos]
    have h : total ≤ (total + limit - 1) / limit * limit := by
      have h1 := Nat.div_add_mod (total + limit - 1) limit
      have h2 := Nat.mod_lt (total + limit - 1) (show 0 < limit by omega)
      have h3 : (total + limit - 1) / limit * limit = limit * ((total + limit - 1) / limit) :=
        Nat.mul_comm _ _
      omega
    exact_mod_cast h
  · by_contra hlt
    rw [not_le, Nat.lt_iff_add_one_le] at hlt
    have h1 : ((⌈(total : ℚ) / (limit : ℚ)⌉₊ : ℕ) : ℚ) * limit ≥ total := by
      have := Nat.le_ceil ((total : ℚ) / (limit : ℚ))
      rwa [div_le_iff₀ hpos] at this
    have h2 : total ≤ ⌈(total : ℚ) / (limit : ℚ)⌉₊ * limit := by exact_mod_cast h1
    have h3 : (⌈(total : ℚ) / (limit : ℚ)⌉₊ + 1) * limit ≤ (total + limit - 1) / limit * limit :=
      Nat.mul_le_mul_right _ hlt
    have h4 : (total + limit - 1) / limit * limit ≤ total + limit - 1 := Nat.div_mul_le_self _ _
    have h5 : (⌈(total : ℚ) / (limit : ℚ)⌉₊ + 1) * limit
        = ⌈(total : ℚ) / (limit : ℚ)⌉₊ * limit + limit := by ring
    omega

theorem pages_take {α : Type} (l : List α) (k : Nat) (n : Nat) :
    (List.range n).flatMap (fun i => (l.drop (i * k)).take k) = l.take (n * k) := by
  induction n with
  | zero => simp
  | succ n ih =>
    rw [List.range_succ, List.flatMap_append, ih]
    simp only [List.flatMap_cons, List.flatMap_nil, List.append_nil]
    rw [Nat.succ_mul, List.take_add]

theorem pageDocs_eq (sorted : List Appointment) (page limit : Nat) (hl : 1 ≤ limit) :
    pageDocs sorted page limit = (sorted.drop ((page - 1) * limit)).take limit := by
  unfold pageDocs
  rw [if_neg (by omega)]

theorem div_mul_ge (total limit : Nat) (hl : 1 ≤ limit) :
    total ≤ (total + limit - 1) / limit * limit := by
  have h1 := Nat.div_add_mod (total + limit - 1) limit
  have h2 := Nat.mod_lt (total + limit - 1) (show 0 < limit by omega)
  have h3 : (total + limit - 1) / limit * limit = limit * ((total + limit - 1) / limit) :=
    Nat.mul_comm _ _
  omega

theorem listAppointments_eq_listAnswer (tza : Int) (db : Database) (user : User)
    (q : ListQuery) :
    listAppointments tza db user q = listAnswer (sortedMatches tza db user q) q := rfl

theorem fieldLe_total (f : SortField) (a b : Appointment) :
    fieldLe f a b = true ∨ fieldLe f b a = true := by
  cases f <;> simp only [fieldLe, Bool.not_eq_true', decide_eq_false_iff_not, decide_eq_true_eq,
    not_lt]
  · exact le_total _ _
  · exact le_total _ _
  · exact le_total _ _
  · exact le_total _ _

theorem fieldLe_trans (f : SortField) (a b c : Appointment)
    (h1 : fieldLe f a b = true) (h2 : fieldLe f b c = true) : fieldLe f a c = true := by
  cases f <;> simp only [fieldLe, Bool.not_eq_true', decide_eq_false_iff_not, decide_eq_true_eq,
    not_lt] at h1 h2 ⊢
  · exact le_trans h1 h2
  · exact le_trans h1 h2
  · exact le_trans h1 h2
  · exact le_trans h1 h2

theorem sortLe_total (q : ListQuery) (a b : Appointment) : sortLe q a b ∨ sortLe q b a := by
  unfold sortLe
  split_ifs
  · exact fieldLe_total _ b a
  · exact fieldLe_total _ a b

theorem sortLe_trans (q : ListQuery) (a b c : Appointment) (h1 : sortLe q a b)
    (h2 : sortLe q b c) : sortLe q a c := by
  unfold sortLe at h1 h2 ⊢
  split_ifs at h1 h2 ⊢
  · exact fieldLe_trans _ c b a h2 h1
  · exact fieldLe_trans _ a b c h1 h2

theorem sortedMatches_isSortedAnswer (tza : Int) (db : Database) (user : User)
    (q : ListQuery) : isSortedAnswer tza db user q (sortedMatches tza db user q) :=
  haveI : IsTotal Appointment (sortLe q) := ⟨sortLe_total q⟩
  haveI : IsTrans Appointment (sortLe q) := ⟨sortLe_trans q⟩
  ⟨List.perm_insertionSort _ _, List.sorted_insertionSort _ _⟩

theorem sorted_perm_unique {α : Type} (r : α → α → Prop) :
    ∀ (l₁ l₂ : List α), (∀ a ∈ l₁, ∀ b ∈ l₁, r a b → r b a → a = b) → l₁.Perm l₂ →
      l₁.Sorted r → l₂.Sorted r → l₁ = l₂ := by
  intro l₁
  induction l₁ with
  | nil => intro l₂ _ hp _ _; exact hp.nil_eq
  | cons a t ih =>
    intro l₂ hanti hp hs₁ hs₂
    cases l₂ with
    | nil => exact absurd hp.length_eq (by simp)
    | cons b t₂ =>
      have hab : a = b := by
        by_contra hne
        have ha : a ∈ b :: t₂ := hp.subset (List.mem_cons_self _ _)
        have hb : b ∈ a :: t := hp.symm.subset (List.mem_cons_self _ _)
        have hba : r b a := by
          rcases List.mem_cons.1 ha with h | h
          · exact absurd h hne
          · exact List.rel_of_sorted_cons hs₂ a h
        have hab' : r a b := by
          rcases List.mem_cons.1 hb with h | h
          · exact absurd h.symm hne
          · exact List.rel_of_sorted_cons hs₁ b h
        exact hne (hanti a (List.mem_cons_self _ _) b hb hab' hba)
      subst hab
      congr 1
      exact ih t₂ (fun x hx y hy => hanti x (List.mem_cons_of_mem _ hx) y (List.mem_cons_of_mem _ hy))
        ((List.perm_cons a).1 hp) hs₁.of_cons hs₂.of_cons

theorem listAnswer_page (docs : List Appointment) (q : ListQuery) (p limit : Nat)
    (hp : 1 ≤ p) (hl : 1 ≤ limit) :
    listAnswer docs { q with page := some p, limit := some limit }
      = ListResponse.ok ((docs.drop ((p - 1) * limit)).take limit)
          (some ((docs.length + limit - 1) / limit)) p docs.length := by
  unfold listAnswer
  simp only [Option.getD_some]
  rw [if_neg (by omega), pageDocs_eq _ _ _ hl]
  simp only [totalPages, if_neg (show ¬ limit = 0 by omega), ceil_div_eq _ _ hl]

/-! ## Claims on the list route -/

/-- Claim C30 fails when two matching documents are equal on the sort field: the two
appointments of the route scenario have the same date, so the database may answer the
query sorted by date in either order; with one document per page, page 1 of one answer
and page 2 of the other are the same appointment, and the 18:00 appointment is on neither
page. -/
theorem list_pages_repeat_on_equal_keys :
    isSortedAnswer 0 routeDb adminUser noParams [scenarioActive 10, lateAppt] ∧
    isSortedAnswer 0 routeDb adminUser noParams [lateAppt, scenarioActive 10] ∧
    (listAnswer [scenarioActive 10, lateAppt]
      { noParams with page := some 1, limit := some 1 }).appointments = [scenarioActive 10] ∧
    (listAnswer [lateAppt, scenarioActive 10]
      { noParams with page := some 2, limit := some 1 }).appointments = [scenarioActive 10] ∧
    (findMatches 0 routeDb adminUser noParams).length = 2 ∧
    lateAppt ∈ findMatches 0 routeDb adminUser noParams := by
  decide

/-- Claim C30, as the code has it. In the list route, for every integer limit of at least
1 and every answer the database may give to the sorted query (the matching documents, each
once, in the order asked for): `totalPages` is the ceiling of `total / limit`; page `p`
skips `(p - 1) * limit` documents of that answer and takes at most `limit`; the pages 1 to
`totalPages` cut from one answer, put one after the other, are that answer; every later
page is empty and the last counted page is not. When no two matching documents are equal
on the sort field there is one such answer only, so the pages, whichever answer each is
cut from, together are the matching documents in the sorted order. -/
theorem list_pages_of_sorted_answers (tza : Int) (db : Database) (user : User)
    (q : ListQuery) (limit : Nat) (hl : 1 ≤ limit) :
    isSortedAnswer tza db user q (sortedMatches tza db user q) ∧
    (∀ docs, isSortedAnswer tza db user q docs →
      docs.length = (findMatches tza db user q).length ∧
      totalPages docs.length limit = some ⌈(docs.length : ℚ) / (limit : ℚ)⌉₊ ∧
      (∀ p, 1 ≤ p →
        listAnswer docs { q with page := some p, limit := some limit }
          = ListResponse.ok ((docs.drop ((p - 1) * limit)).take limit)
              (some ⌈(docs.length : ℚ) / (limit : ℚ)⌉₊) p docs.length) ∧
      ((List.range ⌈(docs.length : ℚ) / (limit : ℚ)⌉₊).flatMap
          (fun i => (listAnswer docs
            { q with page := some (i + 1), limit := some limit }).appointments) = docs) ∧
      (∀ p, ⌈(docs.length : ℚ) / (limit : ℚ)⌉₊ < p →
        (listAnswer docs { q with page := some p, limit := some limit }).appointments = []) ∧
      (0 < docs.length →
        (listAnswer docs
          { q with page := some ⌈(docs.length : ℚ) / (limit : ℚ)⌉₊,
                   limit := some limit }).appointments ≠ [])) ∧
    ((∀ a ∈ findMatches tza db user q, ∀ b ∈ findMatches tza db user q,
        sortLe q a b → sortLe q b a → a = b) →
      ∀ answers : Nat → List Appointment, (∀ i, isSortedAnswer tza db user q (answers i)) →
        (List.range ⌈((findMatches tza db user q).length : ℚ) / (limit : ℚ)⌉₊).flatMap
            (fun i => (listAnswer (answers i)
              { q with page := some (i + 1), limit := some limit }).appointments)
          = sortedMatches tza db user q) := by
  have hmain : ∀ docs : List Appointment,
      totalPages docs.length limit = some ⌈(docs.length : ℚ) / (limit : ℚ)⌉₊ ∧
      (∀ p, 1 ≤ p →
        listAnswer docs { q with page := some p, limit := some limit }
          = ListResponse.ok ((docs.drop ((p - 1) * limit)).take limit)
              (some ⌈(docs.length : ℚ) / (limit : ℚ)⌉₊) p docs.length) ∧
      ((List.range ⌈(docs.length : ℚ) / (limit : ℚ)⌉₊).flatMap
          (fun i => (listAnswer docs
            { q with page := some (i + 1), limit := some limit }).appointments) = docs) ∧
      (∀ p, ⌈(docs.length : ℚ) / (limit : ℚ)⌉₊ < p →
        (listAnswer docs { q with page := some p, limit := some limit }).appointments = []) ∧
      (0 < docs.length →
        (listAnswer docs
          { q with page := some ⌈(docs.length : ℚ) / (limit : ℚ)⌉₊,
                   limit := some limit }).appointments ≠ []) := by
    intro docs
    rw [ceil_div_eq _ _ hl]
    have hge := div_mul_ge docs.length limit hl
    have hle : (docs.length + limit - 1) / limit * limit ≤ docs.length + limit - 1 :=
      Nat.div_mul_le_self _ _
    generalize htp : (docs.length + limit - 1) / limit = tp at *
    refine ⟨?_, ?_, ?_, ?_, ?_⟩
    · simp only [totalPages, if_neg (show ¬ limit = 0 by omega), ceil_div_eq _ _ hl, htp]
    · intro p hp
      rw [listAnswer_page docs q p limit hp hl, htp]
    · have : ∀ i, (listAnswer docs
          { q with page := some (i + 1), limit := some limit }).appointments
          = (docs.drop (i * limit)).take limit := by
        intro i
        rw [listAnswer_page docs q (i + 1) limit (by omega) hl]
        rfl
      simp only [this]
      rw [pages_take, List.take_of_length_le hge]
    · intro p hp
      rw [listAnswer_page docs q p limit (by omega) hl]
      simp only [ListResponse.appointments]
      have h1 : tp * limit ≤ (p - 1) * limit := Nat.mul_le_mul_right _ (by omega)
      rw [List.drop_of_length_le (by omega)]
      simp
    · intro hpos
      have htp1 : 1 ≤ tp := by
        rcases Nat.eq_zero_or_pos tp with h0 | h0
        · rw [h0] at hge; omega
        · exact h0
      rw [listAnswer_page docs q tp limit htp1 hl]
      simp only [ListResponse.appointments]
      have h2 : (tp - 1) * limit = tp * limit - limit := Nat.sub_one_mul tp limit
      have h3 : limit ≤ tp * limit := Nat.le_mul_of_pos_left limit htp1
      intro hnil
      have hlen := congrArg List.length hnil
      simp only [List.length_take, List.length_drop, List.length_nil] at hlen
      omega
  refine ⟨sortedMatches_isSortedAnswer tza db user q, ?_, ?_⟩
  · intro docs hdocs
    exact ⟨hdocs.1.length_eq, hmain docs⟩
  · intro hties answers hans
    have huniq : ∀ i, answers i = sortedMatches tza db user q := by
      intro i
      have h1 := hans i
      have h2 := sortedMatches_isSortedAnswer tza db user q
      apply sorted_perm_unique (sortLe q) _ _ _ (h1.1.trans h2.1.symm) h1.2 h2.2
      intro a ha b hb
      exact hties a (h1.1.subset ha) b (h1.1.subset hb)
    simp only [huniq]
    rw [← (sortedMatches_isSortedAnswer tza db user q).1.length_eq]
    exact (hmain (sortedMatches tza db user q)).2.2.1

/-- Instance of claim C30, as the code has it: the two appointments of the route scenario
listed one per page from the answer that has the 18:00 appointment first. -/
theorem list_pages_of_sorted_answers_witness :
    isSortedAnswer 0 routeDb adminUser noParams [lateAppt, scenarioActive 10] ∧
    (listAnswer [lateAppt, scenarioActive 10]
      { noParams with page := some 1, limit := some 1 }).appointments = [lateAppt] ∧
    (listAnswer [lateAppt, scenarioActive 10]
      { noParams with page := some 3, limit := some 1 }).appointments = [] :=
  ⟨by decide, by decide,
    ((list_pages_of_sorted_answers 0 routeDb adminUser noParams 1 (by decide)).2.1
      [lateAppt, scenarioActive 10] (by decide)).2.2.2.2.1 3
      (by
        rw [ceil_div_eq _ _ (by decide)]
        decide)⟩

end HMS
